import Mathlib

/-!
Verification of the tracktor buffering, batching, fan-out and
failure-isolation subsystem.

The development is a shallow embedding of src/tracktor/producer.py and
src/tracktor/multi_producer.py:

  * Python dictionaries are embedded as association lists with
    overwrite-in-place assignment (`dinsert`), matching CPython dict
    semantics (assignment to an existing key keeps its position,
    assignment to a fresh key appends at the end).
  * `datetime.now()` and `datetime.utcnow()` readings are passed to the
    embedded operations as explicit rational-number arguments.
  * `uuid.uuid4()` is modelled as a fresh-supply counter threaded through
    a `World` record: each call yields the next value of the counter,
    reflecting the role of a freshly generated unique identifier.
  * The class-level shared `ThreadPool` is modelled in `World` as an
    optional handle together with a count of pool constructions.
  * `EventData(json.dumps(msg).encode(...))` takes an immutable snapshot
    of the dictionary at serialization time; the embedding stores the
    current value of the message, which has the same snapshot semantics.
  * The `azure.eventhub` client is an external collaborator; a batch
    handed to `ThreadPool.apply_async` is recorded in the `sent` list of
    the owning producer, in submission order.
-/

namespace Tracktor

/-- Values stored in a message dictionary: opaque payload strings, the
generated message identifier (modelled by its fresh-supply index) and the
generated UTC timestamp (modelled by its rational clock reading). -/
inductive Val where
  | str : String → Val
  | uid : Nat → Val
  | time : ℚ → Val
deriving DecidableEq

/-- A message is a Python dictionary: an association list of fields. -/
abbrev Msg := List (String × Val)

/-- Python dict assignment `d[k] = v`: overwrite in place when the key is
present, append at the end otherwise. -/
def dinsert {α : Type} : List (String × α) → String → α → List (String × α)
  | [], k, v => [(k, v)]
  | (k1, v1) :: rest, k, v =>
      if k1 = k then (k, v) :: rest else (k1, v1) :: dinsert rest k v

/-- Python dict lookup `d.get(k)` on a duplicate-free association list. -/
def alookup {α : Type} : List (String × α) → String → Option α
  | [], _ => none
  | (k1, v1) :: rest, k => if k1 = k then some v1 else alookup rest k

/-- Assignment of a message field, `msg[k] = v`. -/
def setKey (m : Msg) (k : String) (v : Val) : Msg := dinsert m k v

/-- Lookup of a message field. -/
def getKey (m : Msg) (k : String) : Option Val := alookup m k

/-! ### MessageBuffer (src/tracktor/producer.py, lines 12 to 34)

The Python class keeps a list of lists; `append` extends the first inner
list, `get_list` appends a fresh empty inner list at the end and pops the
front, `clear` reinstalls `[[]]`, and `len` is the length of the first
inner list. -/

structure MessageBuffer where
  buffer : List (List Msg)
deriving DecidableEq

/-- `MessageBuffer.__init__`: build an empty list of lists. -/
def MessageBuffer.init : MessageBuffer := ⟨[[]]⟩

/-- `MessageBuffer.append`: `self.__buffer[0].append(msg)`.  The outer
list is never empty along any execution (the `[]` branch is the
unreachable IndexError case). -/
def MessageBuffer.append (b : MessageBuffer) (m : Msg) : MessageBuffer :=
  match b.buffer with
  | [] => b
  | x :: xs => ⟨(x ++ [m]) :: xs⟩

/-- `MessageBuffer.get_list`: `self.__buffer.append([])` followed by
`return self.__buffer.pop(0)`. -/
def MessageBuffer.get_list (b : MessageBuffer) : List Msg × MessageBuffer :=
  match b.buffer with
  | [] => ([], ⟨[]⟩)
  | x :: xs => (x, ⟨xs ++ [[]]⟩)

/-- `MessageBuffer.clear`: `self.__buffer = [[]]`. -/
def MessageBuffer.clear (_ : MessageBuffer) : MessageBuffer := ⟨[[]]⟩

/-- `MessageBuffer.__len__`: `len(self.__buffer[0])`. -/
def MessageBuffer.len (b : MessageBuffer) : Nat :=
  match b.buffer with
  | [] => 0
  | x :: _ => x.length

/-! ### Lemmas about MessageBuffer -/

theorem messageBuffer_foldl_append (msgs : List Msg) :
    ∀ pending : List Msg,
      msgs.foldl MessageBuffer.append ⟨[pending]⟩ = ⟨[pending ++ msgs]⟩ := by
  induction msgs with
  | nil => intro pending; simp
  | cons m rest ih =>
      intro pending
      simp only [List.foldl_cons, MessageBuffer.append, ih, List.append_assoc,
        List.singleton_append]

/-- C1: a drain after any sequence of appends returns exactly the pending
messages followed by the appended ones, in append order; it installs a
fresh empty batch, so the post-drain size is 0 and every message appears
with its full multiplicity in the drained batch and not at all in the
post-drain buffer — never zero times, never twice. -/
theorem messageBuffer_drain_exact (pending msgs : List Msg) :
    ((msgs.foldl MessageBuffer.append ⟨[pending]⟩).get_list).1 = pending ++ msgs ∧
    ((msgs.foldl MessageBuffer.append ⟨[pending]⟩).get_list).2 = MessageBuffer.init ∧
    (((msgs.foldl MessageBuffer.append ⟨[pending]⟩).get_list).2).len = 0 ∧
    (∀ m : Msg,
      (((msgs.foldl MessageBuffer.append ⟨[pending]⟩).get_list).1).count m +
        ((((msgs.foldl MessageBuffer.append ⟨[pending]⟩).get_list).2).buffer.headD []).count m =
      (pending ++ msgs).count m) := by
  rw [messageBuffer_foldl_append]
  refine ⟨rfl, rfl, rfl, ?_⟩
  intro m
  simp [MessageBuffer.get_list]

/-! ### Shared process state

`World` holds the process-global effects the producer code touches: the
`uuid.uuid4()` fresh-supply counter and the class-level shared
`ThreadPool` (an optional handle plus a count of pool constructions). -/

structure World where
  uuidCtr : Nat
  threadPool : Option Nat
  poolsCreated : Nat
deriving DecidableEq

/-- The `thread_pool` property (src/tracktor/producer.py, lines 92 to
105) under sequential execution: when the class attribute is `None`, a
pool is constructed and stored, otherwise the stored pool is returned.
The interleaved two-step semantics of the same code is modelled
separately below for the concurrency analysis. -/
def World.thread_pool (w : World) : Nat × World :=
  match w.threadPool with
  | some p => (p, w)
  | none =>
      (w.poolsCreated,
       { w with threadPool := some w.poolsCreated,
                poolsCreated := w.poolsCreated + 1 })

/-! ### TracktorProducer (src/tracktor/producer.py, lines 37 to 152)

The `client` argument of `__init__` is the external `azure.eventhub`
collaborator and is not modelled; a batch handed to
`ThreadPool.apply_async` is appended to `sent`, and `flushes` counts the
invocations of `flush_messages`. -/

structure TracktorProducer where
  name : String
  buffer_size : Nat
  encoding : String
  wait_after_error : ℚ
  messageBuffer : MessageBuffer
  blockedUntil : ℚ
  sent : List (List Msg)
  flushes : Nat
deriving DecidableEq

/-- `TracktorProducer.__init__` at creation time `t0`: fresh buffer and
`self.__blocked_until = datetime.now()`. -/
def TracktorProducer.init (name : String) (buffer_size : Nat)
    (encoding : String) (wait_after_error : ℚ) (t0 : ℚ) : TracktorProducer :=
  { name := name
    buffer_size := buffer_size
    encoding := encoding
    wait_after_error := wait_after_error
    messageBuffer := MessageBuffer.init
    blockedUntil := t0
    sent := []
    flushes := 0 }

/-- `is_blocked`: `datetime.now() < self.__blocked_until`, at clock
reading `now`. -/
def TracktorProducer.is_blocked (p : TracktorProducer) (now : ℚ) : Bool :=
  now < p.blockedUntil

/-- `flush_messages` at clock reading `now`: when not blocked, access the
shared pool and submit the atomically drained batch asynchronously; when
blocked, discard the pending buffer. -/
def TracktorProducer.flush_messages (p : TracktorProducer) (now : ℚ)
    (w : World) : TracktorProducer × World :=
  let p := { p with flushes := p.flushes + 1 }
  if ¬ p.is_blocked now then
    let (_, w) := w.thread_pool
    let (batch, buf) := p.messageBuffer.get_list
    ({ p with messageBuffer := buf, sent := p.sent ++ [batch] }, w)
  else
    ({ p with messageBuffer := p.messageBuffer.clear }, w)

/-- Enrichment performed by `write_dict`: set `message_id` to the fresh
identifier and `message_time` to the UTC clock reading. -/
def TracktorProducer.enrich (msg : Msg) (uid : Nat) (now : ℚ) : Msg :=
  setKey (setKey msg "message_id" (Val.uid uid)) "message_time" (Val.time now)

/-- `write_dict` at clock reading `now`: enrich the dictionary in place,
append its serialized snapshot to the buffer, and flush when the buffer
size reaches the threshold.  Returns the mutated dictionary (the object
the caller passed in), the new producer state and the new world. -/
def TracktorProducer.write_dict (p : TracktorProducer) (msg : Msg)
    (now : ℚ) (w : World) : Msg × TracktorProducer × World :=
  let msg := TracktorProducer.enrich msg w.uuidCtr now
  let w := { w with uuidCtr := w.uuidCtr + 1 }
  let p := { p with messageBuffer := p.messageBuffer.append msg }
  if p.buffer_size ≤ p.messageBuffer.len then
    let (p, w) := p.flush_messages now w
    (msg, p, w)
  else
    (msg, p, w)

/-- `close_pool`: tear down the class-level shared pool when present
(close, join, reset the attribute to `None`). -/
def TracktorProducer.close_pool (w : World) : World :=
  match w.threadPool with
  | some _ => { w with threadPool := none }
  | none => w

/-- `__put_error_callback`, invoked by the pool at clock reading `now`
when a batch send raised: set the blocked-until timestamp. -/
def TracktorProducer.put_error_callback (p : TracktorProducer)
    (now : ℚ) : TracktorProducer :=
  { p with blockedUntil := now + p.wait_after_error }

/-- C2: after a batch send fails at time `t`, the completion callback
sets blocked-until to `t` plus the configured backoff duration and
changes nothing else of the producer state, so the failure reaches no
caller of `write_dict` or `flush_messages` (both remain total state
transformers); a flush at a clock reading strictly before blocked-until
discards the entire pending buffer and submits nothing to the pool, while
a flush at or after blocked-until drains the buffer and submits the
batch. -/
theorem producer_failure_backoff_spec (p : TracktorProducer) (t now : ℚ)
    (w : World) :
    (p.put_error_callback t).blockedUntil = t + p.wait_after_error ∧
    (p.put_error_callback t).messageBuffer = p.messageBuffer ∧
    (p.put_error_callback t).sent = p.sent ∧
    (p.put_error_callback t).flushes = p.flushes ∧
    (p.put_error_callback t).name = p.name ∧
    (p.put_error_callback t).buffer_size = p.buffer_size ∧
    (p.put_error_callback t).wait_after_error = p.wait_after_error ∧
    ((p.flush_messages now w).1.sent =
      if now < p.blockedUntil then p.sent
      else p.sent ++ [(p.messageBuffer.get_list).1]) ∧
    ((p.flush_messages now w).1.messageBuffer =
      if now < p.blockedUntil then MessageBuffer.init
      else (p.messageBuffer.get_list).2) ∧
    ((p.flush_messages now w).2 =
      if now < p.blockedUntil then w else (w.thread_pool).2) := by
  refine ⟨rfl, rfl, rfl, rfl, rfl, rfl, rfl, ?_, ?_, ?_⟩ <;>
    · simp only [TracktorProducer.flush_messages, TracktorProducer.is_blocked,
        MessageBuffer.clear, MessageBuffer.init, decide_eq_true_eq]
      split <;> simp_all

/-- A sequence of `write_dict` calls on one producer; each call carries
the dictionary passed in and the clock reading at which it happens. -/
def TracktorProducer.writeSeq (p : TracktorProducer)
    (calls : List (Msg × ℚ)) (w : World) : TracktorProducer × World :=
  calls.foldl
    (fun acc c =>
      let r := acc.1.write_dict c.1 c.2 acc.2
      (r.2.1, r.2.2))
    (p, w)

theorem writeSeq_below_threshold (calls : List (Msg × ℚ)) :
    ∀ (p : TracktorProducer) (w : World) (ms : List Msg),
      p.messageBuffer = ⟨[ms]⟩ →
      ms.length + calls.length < p.buffer_size →
      ∃ ms2 : List Msg,
        (p.writeSeq calls w).1 = { p with messageBuffer := ⟨[ms2]⟩ } ∧
        ms2.length = ms.length + calls.length ∧
        (p.writeSeq calls w).2 = { w with uuidCtr := w.uuidCtr + calls.length } := by
  induction calls with
  | nil =>
      intro p w ms hbuf _
      refine ⟨ms, ?_, by simp, ?_⟩
      · simp only [TracktorProducer.writeSeq, List.foldl_nil]
        rw [← hbuf]
      · simp [TracktorProducer.writeSeq]
  | cons c cs ih =>
      intro p w ms hbuf hlt
      simp only [List.length_cons] at hlt
      have hnotfull : ¬ p.buffer_size ≤ ms.length + 1 := by omega
      have hstep :
          p.writeSeq (c :: cs) w =
            TracktorProducer.writeSeq
              { p with messageBuffer :=
                  ⟨[ms ++ [TracktorProducer.enrich c.1 w.uuidCtr c.2]]⟩ }
              cs { w with uuidCtr := w.uuidCtr + 1 } := by
        simp only [TracktorProducer.writeSeq, List.foldl_cons]
        congr 1
        simp only [TracktorProducer.write_dict, hbuf, MessageBuffer.append,
          MessageBuffer.len, List.length_append, List.length_singleton]
        simp [hnotfull]
      rw [hstep]
      obtain ⟨ms2, h1, h2, h3⟩ :=
        ih { p with messageBuffer :=
              ⟨[ms ++ [TracktorProducer.enrich c.1 w.uuidCtr c.2]]⟩ }
          { w with uuidCtr := w.uuidCtr + 1 }
          (ms ++ [TracktorProducer.enrich c.1 w.uuidCtr c.2]) rfl
          (by simp only [List.length_append, List.length_singleton]
              omega)
      refine ⟨ms2, ?_, ?_, ?_⟩
      · rw [h1]
      · simp only [List.length_append, List.length_singleton,
          List.length_cons, List.length_nil] at h2 ⊢
        omega
      · rw [h3]
        have harith : w.uuidCtr + 1 + cs.length = w.uuidCtr + (cs.length + 1) := by
          omega
        simp [harith]

/-- C3: a producer with threshold `K ≥ 1` that starts with an empty
buffer and is never in backoff during the run sees exactly one flush over
`K` successive `write_dict` calls — the flush happens on the last call,
the first `K - 1` prefixes trigger none — and afterwards the buffer holds
0 pending messages and exactly one batch was handed to the pool. -/
theorem threshold_flush_spec (p : TracktorProducer)
    (calls : List (Msg × ℚ)) (w : World)
    (hempty : p.messageBuffer = MessageBuffer.init)
    (hlen : calls.length = p.buffer_size)
    (hK : 1 ≤ p.buffer_size)
    (hnb : ∀ c ∈ calls, p.blockedUntil ≤ c.2) :
    (p.writeSeq calls w).1.flushes = p.flushes + 1 ∧
    (p.writeSeq calls w).1.messageBuffer.len = 0 ∧
    (p.writeSeq calls w).1.sent.length = p.sent.length + 1 ∧
    ∀ j < calls.length, (p.writeSeq (calls.take j) w).1.flushes = p.flushes := by
  have hprefix : ∀ j < calls.length,
      (p.writeSeq (calls.take j) w).1.flushes = p.flushes := by
    intro j hj
    obtain ⟨ms2, h1, _, _⟩ :=
      writeSeq_below_threshold (calls.take j) p w [] hempty
        (by simp only [List.length_nil, List.length_take, Nat.zero_add]
            omega)
    rw [h1]
  refine ⟨?_, ?_, ?_, hprefix⟩ <;>
  · rcases calls.eq_nil_or_concat with hnil | ⟨cs, c, hcat⟩
    · exfalso; rw [hnil] at hlen; simp at hlen; omega
    · rw [List.concat_eq_append] at hcat
      subst hcat
      simp only [List.length_append, List.length_singleton] at hlen
      obtain ⟨ms2, h1, h2, h3⟩ :=
        writeSeq_below_threshold cs p w [] hempty
          (by simp only [List.length_nil, Nat.zero_add]; omega)
      simp only [List.length_nil, Nat.zero_add] at h2
      have hsplit : p.writeSeq (cs ++ [c]) w =
          ((p.writeSeq cs w).1.write_dict c.1 c.2 (p.writeSeq cs w).2).2 := by
        simp [TracktorProducer.writeSeq, List.foldl_append,
          TracktorProducer.write_dict]
      rw [hsplit, h1, h3]
      have hcblock : p.blockedUntil ≤ c.2 := hnb c (by simp)
      have hnotlt : ¬ c.2 < p.blockedUntil := not_lt.mpr hcblock
      have hfull : p.buffer_size ≤ ms2.length + 1 := by omega
      simp only [TracktorProducer.write_dict, MessageBuffer.append,
        MessageBuffer.len, List.length_append, List.length_singleton,
        hfull, if_true, TracktorProducer.flush_messages,
        TracktorProducer.is_blocked]
      simp [hnotlt, MessageBuffer.get_list, MessageBuffer.len]

/-- Concrete run for `threshold_flush_spec`: threshold 2, two calls,
one flush on the second call, empty buffer afterwards. -/
theorem threshold_flush_spec_witness :
    ((TracktorProducer.init "a" 2 "utf-8" 10 0).writeSeq
        [([("k", Val.str "v")], 1), ([("k", Val.str "v")], 2)]
        ⟨0, none, 0⟩).1.flushes = (TracktorProducer.init "a" 2 "utf-8" 10 0).flushes + 1 ∧
    ((TracktorProducer.init "a" 2 "utf-8" 10 0).writeSeq
        [([("k", Val.str "v")], 1), ([("k", Val.str "v")], 2)]
        ⟨0, none, 0⟩).1.messageBuffer.len = 0 ∧
    ((TracktorProducer.init "a" 2 "utf-8" 10 0).writeSeq
        [([("k", Val.str "v")], 1), ([("k", Val.str "v")], 2)]
        ⟨0, none, 0⟩).1.sent.length = (TracktorProducer.init "a" 2 "utf-8" 10 0).sent.length + 1 ∧
    ∀ j < ([([("k", Val.str "v")], 1), ([("k", Val.str "v")], 2)] : List (Msg × ℚ)).length,
      ((TracktorProducer.init "a" 2 "utf-8" 10 0).writeSeq
          ([([("k", Val.str "v")], 1), ([("k", Val.str "v")], 2)].take j)
          ⟨0, none, 0⟩).1.flushes = (TracktorProducer.init "a" 2 "utf-8" 10 0).flushes :=
  threshold_flush_spec (TracktorProducer.init "a" 2 "utf-8" 10 0)
    [([("k", Val.str "v")], 1), ([("k", Val.str "v")], 2)]
    ⟨0, none, 0⟩ rfl rfl (by decide) (by decide)

/-! ### CPython string primitives

The configuration parsing in src/tracktor/multi_producer.py uses
`str.startswith`, `str.replace` and `str.split`.  They are embedded here
as structurally recursive functions over the character data of a string,
with CPython semantics: `replace` rewrites every occurrence, scanning
left to right without overlap, and `split` with a nonempty separator
keeps empty pieces.  The degenerate empty search pattern, which the
repository never passes, is modelled as a no-op. -/

def replaceAux (pat rep : List Char) : List Char → Nat → List Char
  | [], _ => []
  | _ :: rest, skip + 1 => replaceAux pat rep rest skip
  | c :: rest, 0 =>
      if pat.isPrefixOf (c :: rest) ∧ pat ≠ [] then
        rep ++ replaceAux pat rep rest (pat.length - 1)
      else
        c :: replaceAux pat rep rest 0

def splitAux (sep : List Char) : List Char → Nat → List (List Char)
  | [], _ => [[]]
  | _ :: rest, skip + 1 => splitAux sep rest skip
  | c :: rest, 0 =>
      if sep.isPrefixOf (c :: rest) ∧ sep ≠ [] then
        [] :: splitAux sep rest (sep.length - 1)
      else
        match splitAux sep rest 0 with
        | [] => [[c]]
        | g :: gs => (c :: g) :: gs

/-- `s.startswith(key)`. -/
def pyStartswith (s key : String) : Bool := key.data.isPrefixOf s.data

/-- `s.replace(key, rep)`. -/
def pyReplace (s key rep : String) : String := ⟨replaceAux key.data rep.data s.data 0⟩

/-- `s.split(sep)` for a nonempty separator. -/
def pySplit (s sep : String) : List String :=
  (splitAux sep.data s.data 0).map (fun cs => ⟨cs⟩)

/-! ### MultiProducer configuration parsing
(src/tracktor/multi_producer.py, lines 168 to 263)

A configuration is the dictionary produced by the external config
package: section name to section, a section being a dictionary of string
settings. -/

abbrev ConfSection := List (String × String)
abbrev Config := List (String × ConfSection)

/-- The section-collecting loop of `MultiProducer.get_eventhub_config`:
every section whose name starts with the producer key contributes an
entry under the name with the key stripped via `str.replace`. -/
def collectProducerSections (configs : Config)
    (config_key_startswith : String) : List (String × ConfSection) :=
  configs.foldl
    (fun acc sc =>
      if pyStartswith sc.1 config_key_startswith then
        dinsert acc (pyReplace sc.1 config_key_startswith "") sc.2
      else acc) []

/-- `MultiProducer.get_eventhub_config`: collect the producer sections
and raise when none is found. -/
def get_eventhub_config (configs : Config) (config_key_startswith : String) :
    Except String (List (String × ConfSection)) :=
  let eventhub_config := collectProducerSections configs config_key_startswith
  if eventhub_config.length = 0 then
    Except.error "No section name starting with the producer key"
  else
    Except.ok eventhub_config

/-- The entry-parsing loop of `MultiProducer.get_uri_to_producer`: skip
entries with an empty value and split the others on commas into a set of
names. -/
def parseRoutingEntries (sec : ConfSection) : List (String × List String) :=
  sec.foldl
    (fun acc sw =>
      if sw.2 = "" then acc
      else dinsert acc sw.1 ((pySplit sw.2 ",").dedup)) []

/-- `MultiProducer.get_uri_to_producer`: read the routing section
(`configs[section_name]` raises a KeyError when absent), parse its
entries, raise when the resulting mapping is empty, and install an empty
default entry when none is configured. -/
def get_uri_to_producer (configs : Config) (section_name : String) :
    Except String (List (String × List String)) :=
  match alookup configs section_name with
  | none => Except.error "KeyError: no uri to producer section"
  | some sec =>
      let uri_to_producer := parseRoutingEntries sec
      if uri_to_producer.length = 0 then
        Except.error "No or only empty uri to producer matching found."
      else if (alookup uri_to_producer "default").isSome then
        Except.ok uri_to_producer
      else
        Except.ok (dinsert uri_to_producer "default" [])

/-- Registry state: the name-to-producer dictionary and the routing
table.  The Python routing table stores sets of producer objects aliasing
the named ones; since the registry is the unique owner, the embedding
stores the producer names and resolves them through `named_producers`,
which preserves the aliasing. -/
structure MultiProducerState where
  named_producers : List (String × TracktorProducer)
  producers : List (String × List String)
deriving DecidableEq

/-- The routing-assignment loop at the end of
`MultiProducer.create_producers`: each selector entry becomes the set of
producers named in it; a name without a producer raises a KeyError. -/
def assignRouting (named : List (String × TracktorProducer)) :
    List (String × List String) → List (String × List String) →
    Except String (List (String × List String))
  | acc, [] => Except.ok acc
  | acc, sw :: rest =>
      if sw.2.all (fun nm => (alookup named nm).isSome) then
        assignRouting named (dinsert acc sw.1 sw.2) rest
      else
        Except.error "KeyError: selector references an undefined producer name"

/-- The producer-creating loop of `MultiProducer.create_producers`: one
producer per parsed section name, skipping names already created.  For a
new name the client is built first, and its arguments
`single_config["connection_str"]` and then
`single_config["eventhub_name"]` raise a KeyError when the section lacks
those keys; the `EventHubProducerClient` object itself is the external
collaborator and carries no further modelled state. -/
def buildNamedProducers (buffer_size : Nat) (wait_after_error t0 : ℚ) :
    List (String × TracktorProducer) → List (String × ConfSection) →
    Except String (List (String × TracktorProducer))
  | acc, [] => Except.ok acc
  | acc, nc :: rest =>
      if (alookup acc nc.1).isSome then
        buildNamedProducers buffer_size wait_after_error t0 acc rest
      else
        match alookup nc.2 "connection_str", alookup nc.2 "eventhub_name" with
        | none, _ => Except.error "KeyError: connection_str"
        | some _, none => Except.error "KeyError: eventhub_name"
        | some _, some _ =>
            buildNamedProducers buffer_size wait_after_error t0
              (acc ++ [(nc.1,
                TracktorProducer.init nc.1 buffer_size
                  ((alookup nc.2 "encoding").getD "utf-8")
                  wait_after_error t0)]) rest

/-- `MultiProducer.create_producers` at creation time `t0`: parse the
producer sections and the routing section, create each named producer
exactly once, then assign the routing table.  Any raised error
propagates to the constructor. -/
def create_producers (configs : Config)
    (uri_section producer_startswith : String)
    (buffer_size : Nat) (wait_after_error : ℚ) (t0 : ℚ) :
    Except String MultiProducerState :=
  match get_eventhub_config configs producer_startswith with
  | Except.error e => Except.error e
  | Except.ok producer_config =>
      match get_uri_to_producer configs uri_section with
      | Except.error e => Except.error e
      | Except.ok switch_to_producer =>
          match buildNamedProducers buffer_size wait_after_error t0
              [] producer_config with
          | Except.error e => Except.error e
          | Except.ok named =>
              match assignRouting named [] switch_to_producer with
              | Except.error e => Except.error e
              | Except.ok routing => Except.ok ⟨named, routing⟩

/-- `MultiProducer.producers`: the routing lookup
`__producers.get(selectorValue, __producers["default"])`.  The selector
is the request parameter, absent or present; an absent parameter is the
`None` key, which the routing table never contains.  Construction
guarantees the default entry (proved below); the `[]` fallback is its
unreachable KeyError branch. -/
def MultiProducerState.resolveTargets (s : MultiProducerState)
    (selectorValue : Option String) : List String :=
  match selectorValue with
  | none => (alookup s.producers "default").getD []
  | some v => (alookup s.producers v).getD ((alookup s.producers "default").getD [])

/-- One iteration of the fan-out loop of `MultiProducer.write_dict`:
call `write_dict` of the named producer on the current dictionary.  The
skip on a name without a producer is the unreachable KeyError branch. -/
def dispatchStep (now : ℚ) (acc : Msg × MultiProducerState × World)
    (nm : String) : Msg × MultiProducerState × World :=
  match alookup acc.2.1.named_producers nm with
  | none => acc
  | some p =>
      let r := p.write_dict acc.1 now acc.2.2
      (r.1, ⟨dinsert acc.2.1.named_producers nm r.2.1, acc.2.1.producers⟩,
        r.2.2)

/-- `MultiProducer.write_dict`: fan the one dictionary out to every
producer of the resolved target set, mutating it in place at each step.
-/
def MultiProducerState.write_dict (s : MultiProducerState) (msg : Msg)
    (selectorValue : Option String) (now : ℚ) (w : World) :
    Msg × MultiProducerState × World :=
  (s.resolveTargets selectorValue).foldl (dispatchStep now) (msg, s, w)

/-- `MultiProducer.flush_messages`: flush every named producer; when
`close_pool` is set, additionally tear down the shared pool after
waiting for it to finish. -/
def MultiProducerState.flush_messages (s : MultiProducerState)
    (close_pool : Bool) (now : ℚ) (w : World) : MultiProducerState × World :=
  let r := s.named_producers.foldl
    (fun acc np =>
      let q := np.2.flush_messages now acc.2
      (acc.1 ++ [(np.1, q.1)], q.2))
    (([] : List (String × TracktorProducer)), w)
  let w2 := if close_pool then TracktorProducer.close_pool r.2 else r.2
  (⟨r.1, s.producers⟩, w2)

/-! ### Association-list lemmas -/

theorem alookup_dinsert {α : Type} (l : List (String × α)) (k : String)
    (v : α) : alookup (dinsert l k v) k = some v := by
  induction l with
  | nil => simp [dinsert, alookup]
  | cons kv rest ih =>
      obtain ⟨k1, v1⟩ := kv
      by_cases h : k1 = k
      · simp [dinsert, alookup, h]
      · simp [dinsert, alookup, h, ih]

theorem alookup_dinsert_ne {α : Type} (l : List (String × α))
    (k k2 : String) (v : α) (h : k2 ≠ k) :
    alookup (dinsert l k v) k2 = alookup l k2 := by
  have h2 : k ≠ k2 := Ne.symm h
  induction l with
  | nil => simp [dinsert, alookup, h2]
  | cons kv rest ih =>
      obtain ⟨k1, v1⟩ := kv
      by_cases h1 : k1 = k
      · subst h1
        simp [dinsert, alookup, h2]
      · simp only [dinsert, if_neg h1, alookup]
        by_cases h3 : k1 = k2 <;> simp [h3, ih]

theorem alookup_isSome_iff {α : Type} (l : List (String × α)) (k : String) :
    (alookup l k).isSome ↔ k ∈ l.map Prod.fst := by
  induction l with
  | nil => simp [alookup]
  | cons kv rest ih =>
      obtain ⟨k1, v1⟩ := kv
      by_cases h : k1 = k
      · subst h
        simp [alookup]
      · simp [alookup, h, ih, Ne.symm h]

theorem dinsert_of_alookup_none {α : Type} (l : List (String × α))
    (k : String) (v : α) (h : alookup l k = none) :
    dinsert l k v = l ++ [(k, v)] := by
  induction l with
  | nil => simp [dinsert]
  | cons kv rest ih =>
      obtain ⟨k1, v1⟩ := kv
      by_cases h1 : k1 = k
      · simp [alookup, h1] at h
      · simp only [alookup, if_neg h1] at h
        simp [dinsert, h1, ih h]

theorem dinsert_map_fst_of_isSome {α : Type} (l : List (String × α))
    (k : String) (v : α) (h : (alookup l k).isSome) :
    (dinsert l k v).map Prod.fst = l.map Prod.fst := by
  induction l with
  | nil => simp [alookup] at h
  | cons kv rest ih =>
      obtain ⟨k1, v1⟩ := kv
      by_cases h1 : k1 = k
      · simp [dinsert, h1]
      · simp only [alookup, if_neg h1] at h
        simp [dinsert, h1, ih h]

theorem dinsert_keys_nodup {α : Type} (l : List (String × α)) (k : String)
    (v : α) (h : (l.map Prod.fst).Nodup) :
    ((dinsert l k v).map Prod.fst).Nodup := by
  by_cases hk : (alookup l k).isSome
  · rw [dinsert_map_fst_of_isSome l k v hk]
    exact h
  · rw [Option.not_isSome_iff_eq_none] at hk
    rw [dinsert_of_alookup_none l k v hk]
    have hnotmem : k ∉ l.map Prod.fst := by
      rw [← alookup_isSome_iff, hk]
      simp
    simp [List.nodup_append, h, hnotmem]

theorem parseRoutingEntries_keys_nodup (sec : ConfSection) :
    ((parseRoutingEntries sec).map Prod.fst).Nodup := by
  have hgen : ∀ (xs : ConfSection) (acc : List (String × List String)),
      (acc.map Prod.fst).Nodup →
      ((xs.foldl
        (fun acc sw =>
          if sw.2 = "" then acc
          else dinsert acc sw.1 ((pySplit sw.2 ",").dedup)) acc).map
            Prod.fst).Nodup := by
    intro xs
    induction xs with
    | nil => intro acc hacc; simpa using hacc
    | cons sw rest ih =>
        intro acc hacc
        simp only [List.foldl_cons]
        by_cases h : sw.2 = ""
        · simp only [if_pos h]
          exact ih acc hacc
        · simp only [if_neg h]
          exact ih _ (dinsert_keys_nodup _ _ _ hacc)
  exact hgen sec [] (by simp)

theorem get_uri_to_producer_ok (configs : Config) (section_name : String)
    (r : List (String × List String))
    (h : get_uri_to_producer configs section_name = Except.ok r) :
    (alookup r "default").isSome ∧ (r.map Prod.fst).Nodup := by
  unfold get_uri_to_producer at h
  cases hsec : alookup configs section_name with
  | none => rw [hsec] at h; exact absurd h (by simp)
  | some sec =>
      rw [hsec] at h
      simp only at h
      by_cases hlen : (parseRoutingEntries sec).length = 0
      · rw [if_pos hlen] at h
        exact absurd h (by simp)
      · rw [if_neg hlen] at h
        by_cases hdef : (alookup (parseRoutingEntries sec) "default").isSome
        · rw [if_pos hdef] at h
          cases h
          exact ⟨hdef, parseRoutingEntries_keys_nodup sec⟩
        · rw [if_neg hdef] at h
          cases h
          constructor
          · rw [alookup_dinsert]
            simp
          · exact dinsert_keys_nodup _ _ _ (parseRoutingEntries_keys_nodup sec)

theorem assignRouting_ok_append (named : List (String × TracktorProducer)) :
    ∀ (stp acc r : List (String × List String)),
      assignRouting named acc stp = Except.ok r →
      (stp.map Prod.fst).Nodup →
      (∀ e ∈ stp, alookup acc e.1 = none) →
      r = acc ++ stp := by
  intro stp
  induction stp with
  | nil =>
      intro acc r h _ _
      unfold assignRouting at h
      cases h
      simp
  | cons sw rest ih =>
      intro acc r h hnodup hdisj
      unfold assignRouting at h
      by_cases hall : sw.2.all (fun nm => (alookup named nm).isSome)
      · rw [if_pos hall] at h
        simp only [List.map_cons, List.nodup_cons] at hnodup
        have hrest : ∀ e ∈ rest, alookup (dinsert acc sw.1 sw.2) e.1 = none := by
          intro e he
          have hne : e.1 ≠ sw.1 := by
            intro heq
            exact hnodup.1 (heq ▸ List.mem_map_of_mem Prod.fst he)
          rw [alookup_dinsert_ne acc sw.1 e.1 sw.2 hne]
          exact hdisj e (List.mem_cons_of_mem sw he)
        have hr := ih (dinsert acc sw.1 sw.2) r h hnodup.2 hrest
        rw [hr, dinsert_of_alookup_none acc sw.1 sw.2
          (hdisj sw (List.mem_cons_self sw rest))]
        simp
      · rw [if_neg hall] at h
        exact absurd h (by simp)

/-- C4: on every successfully constructed registry, the routing table is
exactly the parsed selector-to-producer-set mapping and always contains
the default entry; `producers` is a pure lookup that returns the
configured set for a mapped selector value, the default set for an
unmapped value and the default set for an absent selector. -/
theorem resolveTargets_default_spec (configs : Config)
    (uri_section producer_startswith : String) (buffer_size : Nat)
    (wait_after_error t0 : ℚ) (s : MultiProducerState)
    (h : create_producers configs uri_section producer_startswith
      buffer_size wait_after_error t0 = Except.ok s) :
    (alookup s.producers "default").isSome ∧
    (∃ stp, get_uri_to_producer configs uri_section = Except.ok stp ∧
      s.producers = stp) ∧
    (∀ v tset, alookup s.producers v = some tset →
      s.resolveTargets (some v) = tset) ∧
    (∀ v, alookup s.producers v = none →
      s.resolveTargets (some v) = (alookup s.producers "default").getD []) ∧
    s.resolveTargets none = (alookup s.producers "default").getD [] := by
  unfold create_producers at h
  cases hpc : get_eventhub_config configs producer_startswith with
  | error e => rw [hpc] at h; exact absurd h (by simp)
  | ok producer_config =>
      rw [hpc] at h
      cases hstp : get_uri_to_producer configs uri_section with
      | error e => rw [hstp] at h; exact absurd h (by simp)
      | ok stp =>
          rw [hstp] at h
          simp only at h
          cases hnp : buildNamedProducers buffer_size wait_after_error t0
              [] producer_config with
          | error e => rw [hnp] at h; exact absurd h (by simp)
          | ok named =>
          rw [hnp] at h
          simp only at h
          cases hr : assignRouting named [] stp with
          | error e => rw [hr] at h; exact absurd h (by simp)
          | ok routing =>
              rw [hr] at h
              cases h
              obtain ⟨hdef, hnodup⟩ :=
                get_uri_to_producer_ok configs uri_section stp hstp
              have hrouting : routing = [] ++ stp :=
                assignRouting_ok_append _ stp [] routing hr hnodup
                  (by intro e _; simp [alookup])
              simp only [List.nil_append] at hrouting
              refine ⟨by simpa [hrouting] using hdef, ⟨stp, rfl, hrouting⟩,
                ?_, ?_, ?_⟩
              · intro v tset hv
                simp [MultiProducerState.resolveTargets, hv]
              · intro v hv
                simp [MultiProducerState.resolveTargets, hv]
              · rfl

/-- Concrete configuration used by the registry witnesses: one producer
section `producer_p1` and a routing section mapping `x` to `p1` with a
default of `p1`. -/
def cfgW : Config :=
  [("producer_p1", [("connection_str", "c"), ("eventhub_name", "e")]),
   ("uri_to_producer", [("x", "p1"), ("default", "p1")])]

/-- The registry built from `cfgW`. -/
def sW : MultiProducerState :=
  match create_producers cfgW "uri_to_producer" "producer_" 3 10 0 with
  | Except.ok s => s
  | Except.error _ => ⟨[], []⟩

/-- Concrete run for `resolveTargets_default_spec` on `cfgW`. -/
theorem resolveTargets_default_spec_witness :
    (alookup sW.producers "default").isSome ∧
    (∃ stp, get_uri_to_producer cfgW "uri_to_producer" = Except.ok stp ∧
      sW.producers = stp) ∧
    (∀ v tset, alookup sW.producers v = some tset →
      sW.resolveTargets (some v) = tset) ∧
    (∀ v, alookup sW.producers v = none →
      sW.resolveTargets (some v) = (alookup sW.producers "default").getD []) ∧
    sW.resolveTargets none = (alookup sW.producers "default").getD [] :=
  resolveTargets_default_spec cfgW "uri_to_producer" "producer_" 3 10 0 sW rfl

theorem alookup_dinsert_isSome {α : Type} (l : List (String × α))
    (k k2 : String) (v : α) :
    (alookup (dinsert l k v) k2).isSome ↔ k2 = k ∨ (alookup l k2).isSome := by
  by_cases h : k2 = k
  · subst h
    simp [alookup_dinsert]
  · rw [alookup_dinsert_ne l k k2 v h]
    simp [h]

theorem alookup_append {α : Type} (l1 l2 : List (String × α)) (k : String) :
    alookup (l1 ++ l2) k =
      match alookup l1 k with
      | some v => some v
      | none => alookup l2 k := by
  induction l1 with
  | nil => simp [alookup]
  | cons kv rest ih =>
      obtain ⟨k1, v1⟩ := kv
      by_cases h : k1 = k <;> simp [alookup, h, ih]

theorem alookup_some_mem {α : Type} (l : List (String × α)) (k : String)
    (v : α) (h : alookup l k = some v) : (k, v) ∈ l := by
  induction l with
  | nil => simp [alookup] at h
  | cons kv rest ih =>
      obtain ⟨k1, v1⟩ := kv
      by_cases h1 : k1 = k
      · subst h1
        simp only [alookup, eq_self_iff_true, if_true,
          Option.some.injEq] at h
        subst h
        exact List.mem_cons_self _ _
      · simp only [alookup, if_neg h1] at h
        exact List.mem_cons_of_mem _ (ih h)

theorem mem_dinsert_sound {α : Type} (l : List (String × α)) (k : String)
    (v : α) (e : String × α) (h : e ∈ dinsert l k v) :
    e ∈ l ∨ e = (k, v) := by
  induction l with
  | nil => simp [dinsert] at h; exact Or.inr h
  | cons kv rest ih =>
      obtain ⟨k1, v1⟩ := kv
      by_cases h1 : k1 = k
      · simp only [dinsert, if_pos h1] at h
        rcases List.mem_cons.mp h with he | he
        · exact Or.inr he
        · exact Or.inl (List.mem_cons_of_mem _ he)
      · simp only [dinsert, if_neg h1] at h
        rcases List.mem_cons.mp h with he | he
        · exact Or.inl (he ▸ List.mem_cons_self _ _)
        · rcases ih he with h2 | h2
          · exact Or.inl (List.mem_cons_of_mem _ h2)
          · exact Or.inr h2

theorem dinsert_ne_nil {α : Type} (l : List (String × α)) (k : String)
    (v : α) : dinsert l k v ≠ [] := by
  cases l with
  | nil => simp [dinsert]
  | cons kv rest =>
      obtain ⟨k1, v1⟩ := kv
      by_cases h : k1 = k <;> simp [dinsert, h]

/-! ### Failure conditions of registry construction -/

/-- No configuration section is a destination section. -/
def noDestinationSections (configs : Config) (key : String) : Prop :=
  ∀ sc ∈ configs, ¬ pyStartswith sc.1 key

/-- No selector-to-destination mapping is configured: the routing section
is absent, or every one of its entries has an empty value. -/
def noRoutingConfigured (configs : Config) (section_name : String) : Prop :=
  ∀ sec, alookup configs section_name = some sec → ∀ sw ∈ sec, sw.2 = ""

/-- The names under which destination sections are collected. -/
def destinationNames (configs : Config) (key : String) : List String :=
  (configs.filter (fun sc => pyStartswith sc.1 key)).map
    (fun sc => pyReplace sc.1 key "")

/-- Some configured selector references a destination name that has no
destination section. -/
def selectorReferencesUndefined (configs : Config)
    (section_name key : String) : Prop :=
  ∃ sec, alookup configs section_name = some sec ∧
    ∃ sw ∈ sec, sw.2 ≠ "" ∧
      ∃ nm ∈ pySplit sw.2 ",", nm ∉ destinationNames configs key

theorem collect_fold_eq_nil (configs : Config) (key : String) :
    ∀ acc,
      configs.foldl
        (fun acc sc =>
          if pyStartswith sc.1 key then
            dinsert acc (pyReplace sc.1 key "") sc.2
          else acc) acc = [] ↔
      (acc = [] ∧ ∀ sc ∈ configs, ¬ pyStartswith sc.1 key) := by
  induction configs with
  | nil => intro acc; simp
  | cons sc rest ih =>
      intro acc
      by_cases h : pyStartswith sc.1 key
      · simp only [List.foldl_cons, if_pos h, ih]
        constructor
        · rintro ⟨hnil, -⟩
          exact absurd hnil (dinsert_ne_nil _ _ _)
        · rintro ⟨-, hall⟩
          exact absurd h (hall sc (List.mem_cons_self _ _))
      · simp only [List.foldl_cons, if_neg h, ih, List.mem_cons]
        constructor
        · rintro ⟨hnil, hall⟩
          exact ⟨hnil, fun x hx => hx.elim (fun he => he ▸ h) (hall x)⟩
        · rintro ⟨hnil, hall⟩
          exact ⟨hnil, fun x hx => hall x (Or.inr hx)⟩

theorem collectProducerSections_eq_nil_iff (configs : Config) (key : String) :
    collectProducerSections configs key = [] ↔
      noDestinationSections configs key := by
  unfold collectProducerSections noDestinationSections
  rw [collect_fold_eq_nil configs key []]
  simp

theorem collect_fold_alookup (configs : Config) (key : String) :
    ∀ acc nm,
      (alookup
        (configs.foldl
          (fun acc sc =>
            if pyStartswith sc.1 key then
              dinsert acc (pyReplace sc.1 key "") sc.2
            else acc) acc) nm).isSome ↔
      ((alookup acc nm).isSome ∨ nm ∈ destinationNames configs key) := by
  induction configs with
  | nil => intro acc nm; simp [destinationNames]
  | cons sc rest ih =>
      intro acc nm
      by_cases h : pyStartswith sc.1 key
      · have hdn : destinationNames (sc :: rest) key =
            pyReplace sc.1 key "" :: destinationNames rest key := by
          simp [destinationNames, List.filter_cons, h]
        simp only [List.foldl_cons, if_pos h, ih, alookup_dinsert_isSome,
          hdn, List.mem_cons]
        tauto
      · have hdn : destinationNames (sc :: rest) key =
            destinationNames rest key := by
          simp [destinationNames, List.filter_cons, h]
        simp only [List.foldl_cons, if_neg h, ih, hdn]

theorem collectProducerSections_alookup (configs : Config) (key nm : String) :
    (alookup (collectProducerSections configs key) nm).isSome ↔
      nm ∈ destinationNames configs key := by
  unfold collectProducerSections
  rw [collect_fold_alookup configs key [] nm]
  simp [alookup]

theorem alookup_append_singleton_isSome {α : Type}
    (l : List (String × α)) (k nm : String) (v : α) :
    (alookup (l ++ [(k, v)]) nm).isSome ↔
      (alookup l nm).isSome ∨ nm = k := by
  rw [alookup_append]
  cases h : alookup l nm with
  | some v1 => simp
  | none =>
      simp only [h, Option.isSome_none, Bool.false_eq_true, false_or]
      by_cases h2 : k = nm <;> simp [alookup, h2, eq_comm]

theorem collectProducerSections_keys_nodup (configs : Config)
    (key : String) :
    ((collectProducerSections configs key).map Prod.fst).Nodup := by
  unfold collectProducerSections
  have hgen : ∀ (xs : Config) (acc : List (String × ConfSection)),
      (acc.map Prod.fst).Nodup →
      ((xs.foldl
        (fun acc sc =>
          if pyStartswith sc.1 key then
            dinsert acc (pyReplace sc.1 key "") sc.2
          else acc) acc).map Prod.fst).Nodup := by
    intro xs
    induction xs with
    | nil => intro acc hacc; simpa using hacc
    | cons sc rest ih =>
        intro acc hacc
        simp only [List.foldl_cons]
        by_cases h : pyStartswith sc.1 key
        · simp only [if_pos h]
          exact ih _ (dinsert_keys_nodup _ _ _ hacc)
        · simp only [if_neg h]
          exact ih acc hacc
  exact hgen configs [] (by simp)

theorem buildNamed_ok_keys (bs : Nat) (wae t0 : ℚ) :
    ∀ (pc : List (String × ConfSection))
      (acc r : List (String × TracktorProducer)),
      buildNamedProducers bs wae t0 acc pc = Except.ok r →
      (acc.map Prod.fst).Nodup →
      ((r.map Prod.fst).Nodup ∧
       ∀ nm, (alookup r nm).isSome ↔
        ((alookup acc nm).isSome ∨ nm ∈ pc.map Prod.fst)) := by
  intro pc
  induction pc with
  | nil =>
      intro acc r h hacc
      unfold buildNamedProducers at h
      cases h
      exact ⟨hacc, fun nm => by simp⟩
  | cons nc rest ih =>
      intro acc r h hacc
      unfold buildNamedProducers at h
      by_cases hg : (alookup acc nc.1).isSome
      · rw [if_pos hg] at h
        obtain ⟨hnd, hmem⟩ := ih acc r h hacc
        refine ⟨hnd, fun nm => ?_⟩
        rw [hmem nm]
        simp only [List.map_cons, List.mem_cons]
        constructor
        · tauto
        · rintro (ha | he | hr2)
          · exact Or.inl ha
          · exact Or.inl (he ▸ hg)
          · exact Or.inr hr2
      · rw [if_neg hg] at h
        cases hcs : alookup nc.2 "connection_str" with
        | none => rw [hcs] at h; exact absurd h (by simp)
        | some c1 =>
            rw [hcs] at h
            cases hen : alookup nc.2 "eventhub_name" with
            | none => rw [hen] at h; exact absurd h (by simp)
            | some c2 =>
                rw [hen] at h
                simp only at h
                have hnotmem : nc.1 ∉ acc.map Prod.fst := by
                  rw [← alookup_isSome_iff]
                  exact hg
                have hacc2 : ((acc ++ [(nc.1,
                    TracktorProducer.init nc.1 bs
                      ((alookup nc.2 "encoding").getD "utf-8")
                      wae t0)]).map Prod.fst).Nodup := by
                  simp [List.nodup_append, hacc, hnotmem]
                obtain ⟨hnd, hmem⟩ := ih _ r h hacc2
                refine ⟨hnd, fun nm => ?_⟩
                rw [hmem nm, alookup_append_singleton_isSome]
                simp only [List.map_cons, List.mem_cons]
                tauto

theorem buildNamed_ok_iff (bs : Nat) (wae t0 : ℚ) :
    ∀ (pc : List (String × ConfSection))
      (acc : List (String × TracktorProducer)),
      (pc.map Prod.fst).Nodup →
      (∀ nc ∈ pc, alookup acc nc.1 = none) →
      ((∃ r, buildNamedProducers bs wae t0 acc pc = Except.ok r) ↔
        ∀ nc ∈ pc, (alookup nc.2 "connection_str").isSome ∧
          (alookup nc.2 "eventhub_name").isSome) := by
  intro pc
  induction pc with
  | nil =>
      intro acc _ _
      constructor
      · intro _ nc hnc
        exact absurd hnc (List.not_mem_nil nc)
      · intro _
        exact ⟨acc, rfl⟩
  | cons nc rest ih =>
      intro acc hnodup hdisj
      simp only [List.map_cons, List.nodup_cons] at hnodup
      have hg : ¬ (alookup acc nc.1).isSome := by
        rw [hdisj nc (List.mem_cons_self _ _)]
        simp
      constructor
      · rintro ⟨r, hr⟩ nc2 hnc2
        unfold buildNamedProducers at hr
        rw [if_neg hg] at hr
        cases hcs : alookup nc.2 "connection_str" with
        | none => rw [hcs] at hr; exact absurd hr (by simp)
        | some c1 =>
            rw [hcs] at hr
            cases hen : alookup nc.2 "eventhub_name" with
            | none => rw [hen] at hr; exact absurd hr (by simp)
            | some c2 =>
                rw [hen] at hr
                simp only at hr
                rcases List.mem_cons.mp hnc2 with he | hm
                · subst he
                  simp [hcs, hen]
                · have hdisj2 : ∀ nc2 ∈ rest,
                      alookup (acc ++ [(nc.1,
                        TracktorProducer.init nc.1 bs
                          ((alookup nc.2 "encoding").getD "utf-8")
                          wae t0)]) nc2.1 = none := by
                    intro nc3 hnc3
                    have hne : nc3.1 ≠ nc.1 := by
                      intro he2
                      exact hnodup.1 (he2 ▸ List.mem_map_of_mem Prod.fst hnc3)
                    rw [alookup_append]
                    rw [hdisj nc3 (List.mem_cons_of_mem _ hnc3)]
                    simp [alookup, Ne.symm hne]
                  exact (ih _ hnodup.2 hdisj2).mp ⟨r, hr⟩ nc2 hm
      · intro hall
        unfold buildNamedProducers
        rw [if_neg hg]
        obtain ⟨hcs, hen⟩ := hall nc (List.mem_cons_self _ _)
        rw [Option.isSome_iff_exists] at hcs hen
        obtain ⟨c1, hc1⟩ := hcs
        obtain ⟨c2, hc2⟩ := hen
        rw [hc1, hc2]
        simp only
        have hdisj2 : ∀ nc2 ∈ rest,
            alookup (acc ++ [(nc.1,
              TracktorProducer.init nc.1 bs
                ((alookup nc.2 "encoding").getD "utf-8")
                wae t0)]) nc2.1 = none := by
          intro nc3 hnc3
          have hne : nc3.1 ≠ nc.1 := by
            intro he2
            exact hnodup.1 (he2 ▸ List.mem_map_of_mem Prod.fst hnc3)
          rw [alookup_append]
          rw [hdisj nc3 (List.mem_cons_of_mem _ hnc3)]
          simp [alookup, Ne.symm hne]
        exact (ih _ hnodup.2 hdisj2).mpr
          (fun nc3 hnc3 => hall nc3 (List.mem_cons_of_mem _ hnc3))

theorem parseRouting_fold_eq_nil (sec : ConfSection) :
    ∀ acc,
      sec.foldl
        (fun acc sw =>
          if sw.2 = "" then acc
          else dinsert acc sw.1 ((pySplit sw.2 ",").dedup)) acc = [] ↔
      (acc = [] ∧ ∀ sw ∈ sec, sw.2 = "") := by
  induction sec with
  | nil => intro acc; simp
  | cons sw rest ih =>
      intro acc
      by_cases h : sw.2 = ""
      · simp only [List.foldl_cons, if_pos h, ih, List.mem_cons]
        constructor
        · rintro ⟨hnil, hall⟩
          exact ⟨hnil, fun x hx => hx.elim (fun he => he ▸ h) (hall x)⟩
        · rintro ⟨hnil, hall⟩
          exact ⟨hnil, fun x hx => hall x (Or.inr hx)⟩
      · simp only [List.foldl_cons, if_neg h, ih]
        constructor
        · rintro ⟨hnil, -⟩
          exact absurd hnil (dinsert_ne_nil _ _ _)
        · rintro ⟨-, hall⟩
          exact absurd (hall sw (List.mem_cons_self _ _)) h

theorem parseRoutingEntries_eq_nil_iff (sec : ConfSection) :
    parseRoutingEntries sec = [] ↔ ∀ sw ∈ sec, sw.2 = "" := by
  unfold parseRoutingEntries
  rw [parseRouting_fold_eq_nil sec []]
  simp

theorem parseRouting_mem_sound (sec : ConfSection) :
    ∀ acc e,
      e ∈ sec.foldl
        (fun acc sw =>
          if sw.2 = "" then acc
          else dinsert acc sw.1 ((pySplit sw.2 ",").dedup)) acc →
      e ∈ acc ∨ ∃ sw ∈ sec, sw.2 ≠ "" ∧
        e = (sw.1, (pySplit sw.2 ",").dedup) := by
  induction sec with
  | nil =>
      intro acc e h
      simp only [List.foldl_nil] at h
      exact Or.inl h
  | cons sw rest ih =>
      intro acc e h
      by_cases h1 : sw.2 = ""
      · simp only [List.foldl_cons, if_pos h1] at h
        rcases ih acc e h with ha | ⟨sw2, hm, hne, heq⟩
        · exact Or.inl ha
        · exact Or.inr ⟨sw2, List.mem_cons_of_mem _ hm, hne, heq⟩
      · simp only [List.foldl_cons, if_neg h1] at h
        rcases ih _ e h with ha | ⟨sw2, hm, hne, heq⟩
        · rcases mem_dinsert_sound acc sw.1 _ e ha with hb | hb
          · exact Or.inl hb
          · exact Or.inr ⟨sw, List.mem_cons_self _ _, h1, hb⟩
        · exact Or.inr ⟨sw2, List.mem_cons_of_mem _ hm, hne, heq⟩

theorem parseRouting_fold_alookup_untouched (sec : ConfSection) (k : String)
    (hk : k ∉ sec.map Prod.fst) :
    ∀ acc,
      alookup
        (sec.foldl
          (fun acc sw =>
            if sw.2 = "" then acc
            else dinsert acc sw.1 ((pySplit sw.2 ",").dedup)) acc) k =
      alookup acc k := by
  induction sec with
  | nil => intro acc; simp
  | cons sw rest ih =>
      intro acc
      simp only [List.map_cons, List.mem_cons] at hk
      push_neg at hk
      by_cases h : sw.2 = ""
      · simp only [List.foldl_cons, if_pos h]
        exact ih hk.2 acc
      · simp only [List.foldl_cons, if_neg h]
        rw [ih hk.2 _, alookup_dinsert_ne acc sw.1 k _ hk.1]

theorem parseRouting_alookup_of_mem (sec : ConfSection)
    (hnd : (sec.map Prod.fst).Nodup) (sw : String × String)
    (hmem : sw ∈ sec) (hne : sw.2 ≠ "") :
    alookup (parseRoutingEntries sec) sw.1 =
      some ((pySplit sw.2 ",").dedup) := by
  unfold parseRoutingEntries
  have hgen : ∀ (xs : ConfSection), (xs.map Prod.fst).Nodup →
      sw ∈ xs → ∀ acc,
      alookup
        (xs.foldl
          (fun acc sw =>
            if sw.2 = "" then acc
            else dinsert acc sw.1 ((pySplit sw.2 ",").dedup)) acc) sw.1 =
      some ((pySplit sw.2 ",").dedup) := by
    intro xs
    induction xs with
    | nil => intro _ hm; exact absurd hm (List.not_mem_nil sw)
    | cons sw0 rest ih =>
        intro hnd0 hm acc
        simp only [List.map_cons, List.nodup_cons] at hnd0
        rcases List.mem_cons.mp hm with he | hm2
        · subst he
          have hk : sw.1 ∉ rest.map Prod.fst := hnd0.1
          simp only [List.foldl_cons, if_neg hne]
          rw [parseRouting_fold_alookup_untouched rest sw.1 hk _,
            alookup_dinsert]
        · have hstep : ∀ acc2,
              alookup
                (rest.foldl
                  (fun acc sw =>
                    if sw.2 = "" then acc
                    else dinsert acc sw.1 ((pySplit sw.2 ",").dedup))
                      acc2) sw.1 =
              some ((pySplit sw.2 ",").dedup) := ih hnd0.2 hm2
          by_cases h : sw0.2 = ""
          · simp only [List.foldl_cons, if_pos h]
            exact hstep acc
          · simp only [List.foldl_cons, if_neg h]
            exact hstep _
  exact hgen sec hnd hmem []

theorem get_uri_to_producer_ok_elim (configs : Config)
    (section_name : String) (r : List (String × List String))
    (h : get_uri_to_producer configs section_name = Except.ok r) :
    ∃ sec, alookup configs section_name = some sec ∧
      parseRoutingEntries sec ≠ [] ∧
      (r = parseRoutingEntries sec ∨
        r = parseRoutingEntries sec ++ [("default", [])]) := by
  unfold get_uri_to_producer at h
  cases hsec : alookup configs section_name with
  | none => rw [hsec] at h; exact absurd h (by simp)
  | some sec =>
      rw [hsec] at h
      simp only at h
      by_cases hlen : (parseRoutingEntries sec).length = 0
      · rw [if_pos hlen] at h
        exact absurd h (by simp)
      · rw [if_neg hlen] at h
        refine ⟨sec, rfl, by simpa using hlen, ?_⟩
        by_cases hdef : (alookup (parseRoutingEntries sec) "default").isSome
        · rw [if_pos hdef] at h
          cases h
          exact Or.inl rfl
        · rw [if_neg hdef] at h
          cases h
          rw [Option.not_isSome_iff_eq_none] at hdef
          exact Or.inr (dinsert_of_alookup_none _ _ _ hdef)

theorem get_uri_to_producer_ok_iff (configs : Config)
    (section_name : String) :
    (∃ r, get_uri_to_producer configs section_name = Except.ok r) ↔
      ¬ noRoutingConfigured configs section_name := by
  unfold noRoutingConfigured
  push_neg
  constructor
  · rintro ⟨r, h⟩
    obtain ⟨sec, hsec, hne, -⟩ :=
      get_uri_to_producer_ok_elim configs section_name r h
    have hne2 : ¬ ∀ sw ∈ sec, sw.2 = "" :=
      fun hall => hne ((parseRoutingEntries_eq_nil_iff sec).mpr hall)
    push_neg at hne2
    exact ⟨sec, hsec, hne2⟩
  · rintro ⟨sec, hsec, sw, hm, hne⟩
    have hlen : ¬ (parseRoutingEntries sec).length = 0 := by
      simp only [List.length_eq_zero]
      rw [parseRoutingEntries_eq_nil_iff]
      push_neg
      exact ⟨sw, hm, hne⟩
    unfold get_uri_to_producer
    rw [hsec]
    simp only [if_neg hlen]
    by_cases hdef : (alookup (parseRoutingEntries sec) "default").isSome
    · exact ⟨_, by rw [if_pos hdef]⟩
    · exact ⟨_, by rw [if_neg hdef]⟩

theorem assignRouting_isOk_iff (named : List (String × TracktorProducer)) :
    ∀ (stp : List (String × List String)) (acc : List (String × List String)),
      (∃ r, assignRouting named acc stp = Except.ok r) ↔
      ∀ e ∈ stp, ∀ nm ∈ e.2, (alookup named nm).isSome := by
  intro stp
  induction stp with
  | nil =>
      intro acc
      constructor
      · intro _ e he
        exact absurd he (List.not_mem_nil e)
      · intro _
        exact ⟨acc, rfl⟩
  | cons sw rest ih =>
      intro acc
      unfold assignRouting
      by_cases hall : sw.2.all (fun nm => (alookup named nm).isSome)
      · simp only [if_pos hall, ih]
        constructor
        · intro hrest e he
          rcases List.mem_cons.mp he with he2 | he2
          · subst he2
            intro nm hnm
            have := List.all_eq_true.mp hall nm hnm
            simpa using this
          · exact hrest e he2
        · intro hstep e he
          exact hstep e (List.mem_cons_of_mem _ he)
      · simp only [if_neg hall]
        constructor
        · rintro ⟨r, hr⟩
          exact absurd hr (by simp)
        · intro hstep
          exfalso
          apply hall
          rw [List.all_eq_true]
          intro nm hnm
          have := hstep sw (List.mem_cons_self _ _) nm hnm
          simpa using this

/-- Some collected destination section lacks the `connection_str` or the
`eventhub_name` entry that the client construction subscripts
(multi_producer.py lines 150 to 153). -/
def destinationMissingConnection (configs : Config) (key : String) : Prop :=
  ∃ e ∈ collectProducerSections configs key,
    alookup e.2 "connection_str" = none ∨ alookup e.2 "eventhub_name" = none

/-- A configuration whose one destination section lacks the connection
keys, while destination sections exist, a selector mapping exists and
every referenced name is defined. -/
def cfgBad : Config :=
  [("producer_p1", []), ("uri_to_producer", [("default", "p1")])]

/-- C5 counterexample: on `cfgBad` the constructor raises - the
`single_config["connection_str"]` subscript finds no key - although none
of the three conditions the claim lists holds, so construction failure
is not equivalent to those three conditions: the claimed equivalence is
false at this configuration. -/
theorem create_producers_missing_connection_counterexample :
    create_producers cfgBad "uri_to_producer" "producer_" 3 10 0 =
      Except.error "KeyError: connection_str" ∧
    ¬ noDestinationSections cfgBad "producer_" ∧
    ¬ noRoutingConfigured cfgBad "uri_to_producer" ∧
    ¬ selectorReferencesUndefined cfgBad "uri_to_producer" "producer_" ∧
    ¬ ((∃ s, create_producers cfgBad "uri_to_producer" "producer_" 3 10 0 =
          Except.ok s) ↔
       ¬ (noDestinationSections cfgBad "producer_" ∨
          noRoutingConfigured cfgBad "uri_to_producer" ∨
          selectorReferencesUndefined cfgBad "uri_to_producer"
            "producer_")) := by
  have herr : create_producers cfgBad "uri_to_producer" "producer_" 3 10 0 =
      Except.error "KeyError: connection_str" := rfl
  have hA : ¬ noDestinationSections cfgBad "producer_" := by
    intro hA
    exact hA ("producer_p1", []) (List.mem_cons_self _ _) (by decide)
  have hB : ¬ noRoutingConfigured cfgBad "uri_to_producer" := by
    intro hB
    have hx := hB [("default", "p1")] rfl ("default", "p1")
      (List.mem_cons_self _ _)
    exact absurd hx (by decide)
  have hC : ¬ selectorReferencesUndefined cfgBad "uri_to_producer"
      "producer_" := by
    rintro ⟨sec, hsec, sw, hm, hne, nm, hnm, hnot⟩
    have he : alookup cfgBad "uri_to_producer" =
        some [("default", "p1")] := rfl
    rw [he] at hsec
    injection hsec with hsec2
    subst hsec2
    have hsw : sw = ("default", "p1") := by
      rcases List.mem_cons.mp hm with h1 | h1
      · exact h1
      · exact absurd h1 (List.not_mem_nil sw)
    subst hsw
    have hsplit2 : pySplit "p1" "," = ["p1"] := rfl
    rw [hsplit2] at hnm
    have hnm2 : nm = "p1" := by
      rcases List.mem_cons.mp hnm with h1 | h1
      · exact h1
      · exact absurd h1 (List.not_mem_nil nm)
    subst hnm2
    have hdn : destinationNames cfgBad "producer_" = ["p1"] := rfl
    rw [hdn] at hnot
    exact hnot (List.mem_cons_self _ _)
  refine ⟨herr, hA, hB, hC, ?_⟩
  intro hiff
  obtain ⟨s, hs⟩ := hiff.mpr (by
    rintro (hh | hh | hh)
    · exact hA hh
    · exact hB hh
    · exact hC hh)
  rw [herr] at hs
  exact absurd hs (by simp)

/-- C5 amended: registry construction fails, with the configuration
sections given as dictionaries (duplicate-free routing keys), exactly
when the configuration has no destination section, or no
selector-to-destination mapping, or some collected destination section
lacks a `connection_str` or `eventhub_name` entry, or some selector
references a destination name without a destination section; on every
other configuration it succeeds and builds one producer per collected
destination name, each exactly once. -/
theorem create_producers_failfast_amended_iff (configs : Config)
    (uri_section producer_startswith : String) (buffer_size : Nat)
    (wait_after_error t0 : ℚ)
    (hsec : ∀ sec, alookup configs uri_section = some sec →
      (sec.map Prod.fst).Nodup) :
    ((∃ s, create_producers configs uri_section producer_startswith
        buffer_size wait_after_error t0 = Except.ok s) ↔
      ¬ (noDestinationSections configs producer_startswith ∨
         noRoutingConfigured configs uri_section ∨
         destinationMissingConnection configs producer_startswith ∨
         selectorReferencesUndefined configs uri_section
           producer_startswith)) ∧
    ∀ s, create_producers configs uri_section producer_startswith
        buffer_size wait_after_error t0 = Except.ok s →
      ((s.named_producers.map Prod.fst).Nodup ∧
       ∀ nm, nm ∈ s.named_producers.map Prod.fst ↔
        nm ∈ destinationNames configs producer_startswith) := by
  have hDchar : ¬ destinationMissingConnection configs producer_startswith ↔
      (∀ nc ∈ collectProducerSections configs producer_startswith,
        (alookup nc.2 "connection_str").isSome ∧
        (alookup nc.2 "eventhub_name").isSome) := by
    unfold destinationMissingConnection
    constructor
    · intro hD nc hnc
      constructor
      · by_contra hx
        rw [Option.not_isSome_iff_eq_none] at hx
        exact hD ⟨nc, hnc, Or.inl hx⟩
      · by_contra hx
        rw [Option.not_isSome_iff_eq_none] at hx
        exact hD ⟨nc, hnc, Or.inr hx⟩
    · rintro hall ⟨nc, hnc, hmiss | hmiss⟩
      · have hy := (hall nc hnc).1
        rw [hmiss] at hy
        exact absurd hy (by simp)
      · have hy := (hall nc hnc).2
        rw [hmiss] at hy
        exact absurd hy (by simp)
  by_cases hA : collectProducerSections configs producer_startswith = []
  · have hAcond : noDestinationSections configs producer_startswith :=
      (collectProducerSections_eq_nil_iff _ _).mp hA
    have hcr : create_producers configs uri_section producer_startswith
        buffer_size wait_after_error t0 =
        Except.error "No section name starting with the producer key" := by
      unfold create_producers get_eventhub_config
      rw [if_pos (by simp [hA])]
    rw [hcr]
    refine ⟨?_, ?_⟩
    · constructor
      · rintro ⟨s, hs⟩
        exact absurd hs (by simp)
      · intro hn
        exact absurd (Or.inl hAcond) hn
    · intro s hs
      exact absurd hs (by simp)
  · have hlen1 : ¬ (collectProducerSections configs
        producer_startswith).length = 0 := by
      simpa [List.length_eq_zero] using hA
    have hge : get_eventhub_config configs producer_startswith =
        Except.ok (collectProducerSections configs producer_startswith) := by
      unfold get_eventhub_config
      rw [if_neg hlen1]
    have hAfalse : ¬ noDestinationSections configs producer_startswith := by
      rw [← collectProducerSections_eq_nil_iff]
      exact hA
    cases hstp : get_uri_to_producer configs uri_section with
    | error e2 =>
        have hB : noRoutingConfigured configs uri_section := by
          by_contra hB
          obtain ⟨r, hr⟩ :=
            (get_uri_to_producer_ok_iff configs uri_section).mpr hB
          rw [hstp] at hr
          exact absurd hr (by simp)
        have hcr : create_producers configs uri_section producer_startswith
            buffer_size wait_after_error t0 = Except.error e2 := by
          unfold create_producers
          rw [hge, hstp]
        rw [hcr]
        refine ⟨?_, ?_⟩
        · constructor
          · rintro ⟨s, hs⟩
            exact absurd hs (by simp)
          · intro hn
            exact absurd (Or.inr (Or.inl hB)) hn
        · intro s hs
          exact absurd hs (by simp)
    | ok stp =>
        obtain ⟨sec, hsec0, hne0, hsplit⟩ :=
          get_uri_to_producer_ok_elim configs uri_section stp hstp
        have hsecnodup := hsec sec hsec0
        have hpcnodup := collectProducerSections_keys_nodup configs
          producer_startswith
        have hDiff := buildNamed_ok_iff buffer_size wait_after_error t0
          (collectProducerSections configs producer_startswith) []
          hpcnodup (by intro nc _; rfl)
        cases hnp : buildNamedProducers buffer_size wait_after_error t0
            [] (collectProducerSections configs producer_startswith) with
        | error e4 =>
            have hD : destinationMissingConnection configs
                producer_startswith := by
              by_contra hD
              obtain ⟨r, hr⟩ := hDiff.mpr (hDchar.mp hD)
              rw [hnp] at hr
              exact absurd hr (by simp)
            have hcr : create_producers configs uri_section
                producer_startswith buffer_size wait_after_error t0 =
                Except.error e4 := by
              unfold create_producers
              rw [hge, hstp]
              simp only
              rw [hnp]
            rw [hcr]
            refine ⟨?_, ?_⟩
            · constructor
              · rintro ⟨s, hs⟩
                exact absurd hs (by simp)
              · intro hn
                exact absurd (Or.inr (Or.inr (Or.inl hD))) hn
            · intro s hs
              exact absurd hs (by simp)
        | ok named =>
        have hDfalse : ¬ destinationMissingConnection configs
            producer_startswith := hDchar.mpr (hDiff.mp ⟨named, hnp⟩)
        obtain ⟨hnd0, hmem0⟩ := buildNamed_ok_keys buffer_size
          wait_after_error t0
          (collectProducerSections configs producer_startswith) [] named
          hnp (by simp)
        have hnmem : ∀ nm, (alookup named nm).isSome ↔
            nm ∈ destinationNames configs producer_startswith := by
          intro nm
          rw [hmem0 nm]
          simp only [alookup, Option.isSome_none, Bool.false_eq_true,
            false_or]
          rw [← alookup_isSome_iff, collectProducerSections_alookup]
        have hCiff : (∀ e ∈ stp, ∀ nm ∈ e.2,
            (alookup named nm).isSome) ↔
            ¬ selectorReferencesUndefined configs uri_section
              producer_startswith := by
          constructor
          · intro hall hCx
            obtain ⟨sec2, hsec2, sw, hm, hne, nm, hnm, hnotdest⟩ := hCx
            rw [hsec0] at hsec2
            injection hsec2 with hsec3
            subst hsec3
            have hlook := parseRouting_alookup_of_mem sec hsecnodup sw hm hne
            have hmem2 : (sw.1, (pySplit sw.2 ",").dedup) ∈
                parseRoutingEntries sec := alookup_some_mem _ _ _ hlook
            have hmemstp : (sw.1, (pySplit sw.2 ",").dedup) ∈ stp := by
              rcases hsplit with hh | hh
              · rw [hh]; exact hmem2
              · rw [hh]; exact List.mem_append_left _ hmem2
            have hsome := hall _ hmemstp nm
              (by simpa using List.mem_dedup.mpr hnm)
            exact hnotdest ((hnmem nm).mp hsome)
          · intro hCx e he nm hnm
            by_contra hnone
            have he2 : e ∈ parseRoutingEntries sec ∨
                e = ("default", ([] : List String)) := by
              rcases hsplit with hh | hh
              · rw [hh] at he; exact Or.inl he
              · rw [hh] at he
                rcases List.mem_append.mp he with h2 | h2
                · exact Or.inl h2
                · right; simpa using h2
            rcases he2 with hp | hd
            · have hp2 := parseRouting_mem_sound sec [] e
                (by unfold parseRoutingEntries at hp; exact hp)
              rcases hp2 with himp | ⟨sw, hm, hne, heq⟩
              · exact absurd himp (List.not_mem_nil e)
              · apply hCx
                refine ⟨sec, hsec0, sw, hm, hne, nm, ?_, ?_⟩
                · rw [heq] at hnm
                  exact List.mem_dedup.mp (by simpa using hnm)
                · intro hdest
                  exact hnone ((hnmem nm).mpr hdest)
            · rw [hd] at hnm
              exact absurd hnm (List.not_mem_nil nm)
        cases har : assignRouting named [] stp with
        | error e3 =>
            have hCx : selectorReferencesUndefined configs uri_section
                producer_startswith := by
              by_contra hCx
              obtain ⟨r, hr⟩ :=
                (assignRouting_isOk_iff _ stp []).mpr (hCiff.mpr hCx)
              rw [har] at hr
              exact absurd hr (by simp)
            have hcr : create_producers configs uri_section
                producer_startswith buffer_size wait_after_error t0 =
                Except.error e3 := by
              unfold create_producers
              rw [hge, hstp]
              simp only
              rw [hnp]
              simp only
              rw [har]
            rw [hcr]
            refine ⟨?_, ?_⟩
            · constructor
              · rintro ⟨s, hs⟩
                exact absurd hs (by simp)
              · intro hn
                exact absurd (Or.inr (Or.inr (Or.inr hCx))) hn
            · intro s hs
              exact absurd hs (by simp)
        | ok routing =>
            have hcr : create_producers configs uri_section
                producer_startswith buffer_size wait_after_error t0 =
                Except.ok ⟨named, routing⟩ := by
              unfold create_producers
              rw [hge, hstp]
              simp only
              rw [hnp]
              simp only
              rw [har]
            rw [hcr]
            refine ⟨?_, ?_⟩
            · constructor
              · rintro ⟨s, hs⟩
                rintro (hh | hh | hh | hh)
                · exact hAfalse hh
                · exact (get_uri_to_producer_ok_iff configs
                    uri_section).mp ⟨stp, hstp⟩ hh
                · exact hDfalse hh
                · exact hCiff.mp
                    ((assignRouting_isOk_iff _ stp []).mp ⟨routing, har⟩) hh
              · intro _
                exact ⟨_, rfl⟩
            · intro s hs
              injection hs with hs2
              subst hs2
              refine ⟨hnd0, fun nm => ?_⟩
              rw [← alookup_isSome_iff]
              exact hnmem nm

/-- Concrete run for `create_producers_failfast_amended_iff` on `cfgW`.
-/
theorem create_producers_failfast_amended_iff_witness :
    ((∃ s, create_producers cfgW "uri_to_producer" "producer_" 3 10 0 =
        Except.ok s) ↔
      ¬ (noDestinationSections cfgW "producer_" ∨
         noRoutingConfigured cfgW "uri_to_producer" ∨
         destinationMissingConnection cfgW "producer_" ∨
         selectorReferencesUndefined cfgW "uri_to_producer" "producer_")) ∧
    ∀ s, create_producers cfgW "uri_to_producer" "producer_" 3 10 0 =
        Except.ok s →
      ((s.named_producers.map Prod.fst).Nodup ∧
       ∀ nm, nm ∈ s.named_producers.map Prod.fst ↔
        nm ∈ destinationNames cfgW "producer_") :=
  create_producers_failfast_amended_iff cfgW "uri_to_producer" "producer_"
    3 10 0
    (by
      intro sec h
      have he : alookup cfgW "uri_to_producer" =
          some [("x", "p1"), ("default", "p1")] := rfl
      rw [he] at h
      injection h with h2
      subst h2
      decide)

theorem flush_messages_fst_indep (p : TracktorProducer) (now : ℚ)
    (w w2 : World) :
    (p.flush_messages now w).1 = (p.flush_messages now w2).1 := by
  simp only [TracktorProducer.flush_messages]
  split <;> rfl

theorem close_pool_threadPool_none (w : World) :
    (TracktorProducer.close_pool w).threadPool = none := by
  unfold TracktorProducer.close_pool
  cases h : w.threadPool <;> simp [h]

theorem alookup_map_snd {α β : Type} (l : List (String × α)) (f : α → β)
    (k : String) :
    alookup (l.map (fun e => (e.1, f e.2))) k = (alookup l k).map f := by
  induction l with
  | nil => simp [alookup]
  | cons kv rest ih =>
      obtain ⟨k1, v1⟩ := kv
      by_cases h : k1 = k <;> simp [alookup, h, ih]

theorem multiFlush_fold_named (entries : List (String × TracktorProducer))
    (now : ℚ) :
    ∀ (acc : List (String × TracktorProducer)) (w : World),
      (entries.foldl
        (fun acc np =>
          let q := np.2.flush_messages now acc.2
          (acc.1 ++ [(np.1, q.1)], q.2)) (acc, w)).1 =
      acc ++ entries.map (fun np => (np.1, (np.2.flush_messages now w).1)) := by
  induction entries with
  | nil => intro acc w; simp
  | cons np rest ih =>
      intro acc w
      simp only [List.foldl_cons, List.map_cons]
      rw [ih (acc ++ [(np.1, (np.2.flush_messages now w).1)])
        (np.2.flush_messages now w).2]
      rw [List.append_assoc, List.singleton_append]
      congr 1
      congr 1
      apply List.map_congr_left
      intro x _
      rw [flush_messages_fst_indep x.2 now (np.2.flush_messages now w).2 w]

/-- A registry with a single producer that is inside its backoff window
at shutdown time and still holds one pending message. -/
def pBlocked : TracktorProducer :=
  { name := "a"
    buffer_size := 3
    encoding := "utf-8"
    wait_after_error := 10
    messageBuffer := ⟨[[[("k", Val.str "v")]]]⟩
    blockedUntil := 10
    sent := []
    flushes := 0 }

/-- The registry owning `pBlocked`. -/
def sBlocked : MultiProducerState :=
  ⟨[("a", pBlocked)], [("default", ["a"])]⟩

/-- C7 counterexample: at clock reading 0 the producer `a` is blocked
until 10 and holds 1 pending message; the synchronous
`flush_messages(close_pool=True)` leaves its batch-submission history
empty and its buffer empty, so the final partial batch was discarded
rather than sent, against the claim that the final pending buffer of
every owned producer is drained and sent. -/
theorem flushAll_drops_blocked_counterexample :
    pBlocked.messageBuffer.len = 1 ∧
    (0 : ℚ) < pBlocked.blockedUntil ∧
    (alookup ((sBlocked.flush_messages true 0 ⟨0, none, 0⟩).1.named_producers)
      "a").map (fun p => p.sent) = some [] ∧
    (alookup ((sBlocked.flush_messages true 0 ⟨0, none, 0⟩).1.named_producers)
      "a").map (fun p => p.messageBuffer.len) = some 0 := by
  decide

/-- C7 amended: the synchronous flush tears down the shared pool and
invokes `flush_messages` on every owned producer; a producer not in its
backoff window has its final buffer drained and its batch submitted, but
a producer still inside its backoff window discards its final pending
buffer without submitting anything. -/
theorem flushAll_sync_amended_spec (s : MultiProducerState) (now : ℚ)
    (w : World) :
    ((s.flush_messages true now w).2).threadPool = none ∧
    (∀ nm, alookup ((s.flush_messages true now w).1).named_producers nm =
      (alookup s.named_producers nm).map
        (fun p => (p.flush_messages now w).1)) ∧
    ((s.flush_messages true now w).1).producers = s.producers ∧
    (∀ p : TracktorProducer,
      ((p.flush_messages now w).1.sent =
        if now < p.blockedUntil then p.sent
        else p.sent ++ [(p.messageBuffer.get_list).1]) ∧
      ((p.flush_messages now w).1.messageBuffer =
        if now < p.blockedUntil then MessageBuffer.init
        else (p.messageBuffer.get_list).2)) := by
  refine ⟨?_, ?_, rfl, ?_⟩
  · exact close_pool_threadPool_none _
  · intro nm
    show alookup ((s.named_producers.foldl
      (fun acc np =>
        let q := np.2.flush_messages now acc.2
        (acc.1 ++ [(np.1, q.1)], q.2)) ([], w)).1) nm = _
    rw [multiFlush_fold_named s.named_producers now [] w, List.nil_append]
    exact alookup_map_snd s.named_producers
      (fun p => (p.flush_messages now w).1) nm
  · intro p
    constructor <;>
    · simp only [TracktorProducer.flush_messages, TracktorProducer.is_blocked,
        MessageBuffer.clear, MessageBuffer.init, decide_eq_true_eq]
      split <;> simp_all

theorem getKey_setKey_same (m : Msg) (k : String) (v : Val) :
    getKey (setKey m k v) k = some v :=
  alookup_dinsert m k v

theorem getKey_setKey_ne (m : Msg) (k k2 : String) (v : Val) (h : k2 ≠ k) :
    getKey (setKey m k v) k2 = getKey m k2 :=
  alookup_dinsert_ne m k k2 v h

theorem getKey_enrich_id (m : Msg) (uid : Nat) (t : ℚ) :
    getKey (TracktorProducer.enrich m uid t) "message_id" =
      some (Val.uid uid) := by
  unfold TracktorProducer.enrich
  rw [getKey_setKey_ne _ _ _ _ (by decide)]
  exact getKey_setKey_same _ _ _

theorem getKey_enrich_time (m : Msg) (uid : Nat) (t : ℚ) :
    getKey (TracktorProducer.enrich m uid t) "message_time" =
      some (Val.time t) :=
  getKey_setKey_same _ _ _

theorem write_dict_msg (p : TracktorProducer) (m : Msg) (now : ℚ)
    (w : World) :
    (p.write_dict m now w).1 = TracktorProducer.enrich m w.uuidCtr now := by
  simp only [TracktorProducer.write_dict]
  split <;> rfl

theorem thread_pool_uuidCtr (w : World) :
    ((World.thread_pool w).2).uuidCtr = w.uuidCtr := by
  unfold World.thread_pool
  cases w.threadPool <;> rfl

theorem flush_messages_uuidCtr (p : TracktorProducer) (now : ℚ)
    (w : World) : ((p.flush_messages now w).2).uuidCtr = w.uuidCtr := by
  simp only [TracktorProducer.flush_messages]
  split
  · exact thread_pool_uuidCtr w
  · rfl

theorem write_dict_uuidCtr (p : TracktorProducer) (m : Msg) (now : ℚ)
    (w : World) :
    ((p.write_dict m now w).2.2).uuidCtr = w.uuidCtr + 1 := by
  simp only [TracktorProducer.write_dict]
  split
  · rw [flush_messages_uuidCtr]
  · rfl

theorem messageBuffer_append_len_le (b : MessageBuffer) (m : Msg) :
    (b.append m).len ≤ b.len + 1 := by
  cases hb : b.buffer with
  | nil => simp [MessageBuffer.append, MessageBuffer.len, hb]
  | cons x xs => simp [MessageBuffer.append, MessageBuffer.len, hb]

theorem write_dict_below_threshold (p : TracktorProducer) (m : Msg)
    (now : ℚ) (w : World) (h : p.messageBuffer.len + 1 < p.buffer_size) :
    (p.write_dict m now w).2.1 =
      { p with messageBuffer :=
          p.messageBuffer.append (TracktorProducer.enrich m w.uuidCtr now) } ∧
    (p.write_dict m now w).2.2 = { w with uuidCtr := w.uuidCtr + 1 } := by
  have hle := messageBuffer_append_len_le p.messageBuffer
    (TracktorProducer.enrich m w.uuidCtr now)
  have hnot : ¬ p.buffer_size ≤
      (p.messageBuffer.append
        (TracktorProducer.enrich m w.uuidCtr now)).len := by
    omega
  simp only [TracktorProducer.write_dict]
  rw [if_neg hnot]
  exact ⟨rfl, rfl⟩

/-- C8: every `write_dict` enriches the message with a `message_id`
field drawn from the fresh-identifier supply and a `message_time` field
from the given UTC clock reading, at the buffer-append step; for two
messages submitted in sequence to the same producer with non-decreasing
clock readings, the generated identifiers are distinct and the
timestamps are non-decreasing, and when the threshold is far enough away
the two serialized snapshots sit in the buffer in exactly that enriched
form. -/
theorem enrichment_unique_monotone_spec (p : TracktorProducer)
    (m1 m2 : Msg) (t1 t2 : ℚ) (w : World) (h : t1 ≤ t2) :
    getKey (p.write_dict m1 t1 w).1 "message_id" =
      some (Val.uid w.uuidCtr) ∧
    getKey (p.write_dict m1 t1 w).1 "message_time" =
      some (Val.time t1) ∧
    getKey (((p.write_dict m1 t1 w).2.1).write_dict m2 t2
      ((p.write_dict m1 t1 w).2.2)).1 "message_id" =
      some (Val.uid (w.uuidCtr + 1)) ∧
    getKey (((p.write_dict m1 t1 w).2.1).write_dict m2 t2
      ((p.write_dict m1 t1 w).2.2)).1 "message_time" =
      some (Val.time t2) ∧
    getKey (p.write_dict m1 t1 w).1 "message_id" ≠
      getKey (((p.write_dict m1 t1 w).2.1).write_dict m2 t2
        ((p.write_dict m1 t1 w).2.2)).1 "message_id" ∧
    (∀ u v : ℚ,
      getKey (p.write_dict m1 t1 w).1 "message_time" =
        some (Val.time u) →
      getKey (((p.write_dict m1 t1 w).2.1).write_dict m2 t2
        ((p.write_dict m1 t1 w).2.2)).1 "message_time" =
        some (Val.time v) → u ≤ v) ∧
    (p.messageBuffer.len + 2 < p.buffer_size →
      ((((p.write_dict m1 t1 w).2.1).write_dict m2 t2
        ((p.write_dict m1 t1 w).2.2)).2.1).messageBuffer =
      (p.messageBuffer.append (p.write_dict m1 t1 w).1).append
        (((p.write_dict m1 t1 w).2.1).write_dict m2 t2
          ((p.write_dict m1 t1 w).2.2)).1) := by
  have hid1 : getKey (p.write_dict m1 t1 w).1 "message_id" =
      some (Val.uid w.uuidCtr) := by
    rw [write_dict_msg]
    exact getKey_enrich_id m1 w.uuidCtr t1
  have htime1 : getKey (p.write_dict m1 t1 w).1 "message_time" =
      some (Val.time t1) := by
    rw [write_dict_msg]
    exact getKey_enrich_time m1 w.uuidCtr t1
  have hid2 : getKey (((p.write_dict m1 t1 w).2.1).write_dict m2 t2
      ((p.write_dict m1 t1 w).2.2)).1 "message_id" =
      some (Val.uid (w.uuidCtr + 1)) := by
    rw [write_dict_msg, write_dict_uuidCtr]
    exact getKey_enrich_id m2 _ t2
  have htime2 : getKey (((p.write_dict m1 t1 w).2.1).write_dict m2 t2
      ((p.write_dict m1 t1 w).2.2)).1 "message_time" =
      some (Val.time t2) := by
    rw [write_dict_msg]
    exact getKey_enrich_time m2 _ t2
  refine ⟨hid1, htime1, hid2, htime2, ?_, ?_, ?_⟩
  · rw [hid1, hid2]
    intro he
    injection he with he2
    injection he2 with he3
    omega
  · intro u v hu hv
    rw [htime1] at hu
    rw [htime2] at hv
    injection hu with hu2
    injection hv with hv2
    injection hu2 with hu3
    injection hv2 with hv3
    subst hu3
    subst hv3
    exact h
  · intro hroom
    obtain ⟨hp1, hw1⟩ := write_dict_below_threshold p m1 t1 w (by omega)
    have hlen1 : ((p.write_dict m1 t1 w).2.1).messageBuffer.len + 1 <
        ((p.write_dict m1 t1 w).2.1).buffer_size := by
      rw [hp1]
      have := messageBuffer_append_len_le p.messageBuffer
        (TracktorProducer.enrich m1 w.uuidCtr t1)
      simp only
      omega
    obtain ⟨hp2, -⟩ := write_dict_below_threshold
      ((p.write_dict m1 t1 w).2.1) m2 t2 ((p.write_dict m1 t1 w).2.2) hlen1
    rw [hp2, hp1]
    simp only
    rw [write_dict_msg, write_dict_msg, hw1]

/-- Concrete run for `enrichment_unique_monotone_spec`: two submissions
at clock readings 1 and 2 on a fresh producer with threshold 5. -/
theorem enrichment_unique_monotone_spec_witness :
    getKey ((TracktorProducer.init "a" 5 "utf-8" 10 0).write_dict
      [("k", Val.str "v")] 1 ⟨0, none, 0⟩).1 "message_id" =
      some (Val.uid (⟨0, none, 0⟩ : World).uuidCtr) ∧
    getKey ((TracktorProducer.init "a" 5 "utf-8" 10 0).write_dict
      [("k", Val.str "v")] 1 ⟨0, none, 0⟩).1 "message_time" =
      some (Val.time 1) ∧
    getKey ((((TracktorProducer.init "a" 5 "utf-8" 10 0).write_dict
      [("k", Val.str "v")] 1 ⟨0, none, 0⟩).2.1).write_dict [] 2
      (((TracktorProducer.init "a" 5 "utf-8" 10 0).write_dict
        [("k", Val.str "v")] 1 ⟨0, none, 0⟩).2.2)).1 "message_id" =
      some (Val.uid ((⟨0, none, 0⟩ : World).uuidCtr + 1)) ∧
    getKey ((((TracktorProducer.init "a" 5 "utf-8" 10 0).write_dict
      [("k", Val.str "v")] 1 ⟨0, none, 0⟩).2.1).write_dict [] 2
      (((TracktorProducer.init "a" 5 "utf-8" 10 0).write_dict
        [("k", Val.str "v")] 1 ⟨0, none, 0⟩).2.2)).1 "message_time" =
      some (Val.time 2) ∧
    getKey ((TracktorProducer.init "a" 5 "utf-8" 10 0).write_dict
      [("k", Val.str "v")] 1 ⟨0, none, 0⟩).1 "message_id" ≠
      getKey ((((TracktorProducer.init "a" 5 "utf-8" 10 0).write_dict
        [("k", Val.str "v")] 1 ⟨0, none, 0⟩).2.1).write_dict [] 2
        (((TracktorProducer.init "a" 5 "utf-8" 10 0).write_dict
          [("k", Val.str "v")] 1 ⟨0, none, 0⟩).2.2)).1 "message_id" ∧
    (∀ u v : ℚ,
      getKey ((TracktorProducer.init "a" 5 "utf-8" 10 0).write_dict
        [("k", Val.str "v")] 1 ⟨0, none, 0⟩).1 "message_time" =
        some (Val.time u) →
      getKey ((((TracktorProducer.init "a" 5 "utf-8" 10 0).write_dict
        [("k", Val.str "v")] 1 ⟨0, none, 0⟩).2.1).write_dict [] 2
        (((TracktorProducer.init "a" 5 "utf-8" 10 0).write_dict
          [("k", Val.str "v")] 1 ⟨0, none, 0⟩).2.2)).1 "message_time" =
        some (Val.time v) → u ≤ v) ∧
    ((TracktorProducer.init "a" 5 "utf-8" 10 0).messageBuffer.len + 2 <
        (TracktorProducer.init "a" 5 "utf-8" 10 0).buffer_size →
      (((((TracktorProducer.init "a" 5 "utf-8" 10 0).write_dict
        [("k", Val.str "v")] 1 ⟨0, none, 0⟩).2.1).write_dict [] 2
        (((TracktorProducer.init "a" 5 "utf-8" 10 0).write_dict
          [("k", Val.str "v")] 1 ⟨0, none, 0⟩).2.2)).2.1).messageBuffer =
      ((TracktorProducer.init "a" 5 "utf-8" 10 0).messageBuffer.append
        ((TracktorProducer.init "a" 5 "utf-8" 10 0).write_dict
          [("k", Val.str "v")] 1 ⟨0, none, 0⟩).1).append
        ((((TracktorProducer.init "a" 5 "utf-8" 10 0).write_dict
          [("k", Val.str "v")] 1 ⟨0, none, 0⟩).2.1).write_dict [] 2
          (((TracktorProducer.init "a" 5 "utf-8" 10 0).write_dict
            [("k", Val.str "v")] 1 ⟨0, none, 0⟩).2.2)).1) :=
  enrichment_unique_monotone_spec (TracktorProducer.init "a" 5 "utf-8" 10 0)
    [("k", Val.str "v")] [] 1 2 ⟨0, none, 0⟩ (by decide)

theorem dispatch_fold_frame (now : ℚ) (ts : List String) :
    ∀ (acc : Msg × MultiProducerState × World) (nm : String), nm ∉ ts →
      alookup ((ts.foldl (dispatchStep now) acc).2.1).named_producers nm =
        alookup acc.2.1.named_producers nm := by
  induction ts with
  | nil => intro acc nm _; simp
  | cons nm0 rest ih =>
      intro acc nm hnm
      simp only [List.mem_cons] at hnm
      push_neg at hnm
      simp only [List.foldl_cons]
      rw [ih _ nm hnm.2]
      simp only [dispatchStep]
      cases hl : alookup acc.2.1.named_producers nm0 with
      | none => rfl
      | some p =>
          simp only
          exact alookup_dinsert_ne _ nm0 nm _ hnm.1

theorem dispatch_fold_producers (now : ℚ) (ts : List String) :
    ∀ acc : Msg × MultiProducerState × World,
      ((ts.foldl (dispatchStep now) acc).2.1).producers =
        acc.2.1.producers := by
  induction ts with
  | nil => intro acc; simp
  | cons nm0 rest ih =>
      intro acc
      simp only [List.foldl_cons]
      rw [ih]
      simp only [dispatchStep]
      cases hl : alookup acc.2.1.named_producers nm0 with
      | none => rfl
      | some p => rfl

theorem dispatch_fold_targeted (now : ℚ) (ts : List String) :
    ∀ (acc : Msg × MultiProducerState × World) (nm : String)
      (p : TracktorProducer), ts.Nodup → nm ∈ ts →
      alookup acc.2.1.named_producers nm = some p →
      ∃ m2 w2,
        alookup ((ts.foldl (dispatchStep now) acc).2.1).named_producers nm =
          some ((p.write_dict m2 now w2).2.1) := by
  induction ts with
  | nil => intro _ nm _ _ hm; exact absurd hm (List.not_mem_nil nm)
  | cons nm0 rest ih =>
      intro acc nm p hnodup hm hl
      simp only [List.nodup_cons] at hnodup
      simp only [List.foldl_cons]
      rcases List.mem_cons.mp hm with he | hm2
      · subst he
        rw [dispatch_fold_frame now rest _ nm hnodup.1]
        simp only [dispatchStep, hl]
        exact ⟨acc.1, acc.2.2, alookup_dinsert _ nm _⟩
      · have hne : nm ≠ nm0 := by
          intro he
          exact hnodup.1 (he ▸ hm2)
        apply ih _ nm p hnodup.2 hm2
        simp only [dispatchStep]
        cases hl0 : alookup acc.2.1.named_producers nm0 with
        | none => exact hl
        | some p0 =>
            simp only
            rw [alookup_dinsert_ne _ nm0 nm _ hne]
            exact hl

/-- C6: the fan-out of one dispatch touches exactly the resolved target
set.  Within one `write_dict` the buffer append happens before the
threshold check, so below the threshold the new producer state is the
old one with the enriched message appended, whether or not the producer
is inside its backoff window; producers outside the resolved set and the
routing table are left unchanged; every producer of the resolved set
receives a `write_dict` call; and a dispatch whose selector resolves to
the empty set changes nothing at all. -/
theorem dispatch_fanout_frame_spec (s : MultiProducerState) (msg : Msg)
    (sel : Option String) (now : ℚ) (w : World) :
    (∀ (p : TracktorProducer) (m : Msg) (w2 : World),
      p.messageBuffer.len + 1 < p.buffer_size →
      (p.write_dict m now w2).2.1 =
        { p with messageBuffer :=
            p.messageBuffer.append (TracktorProducer.enrich m w2.uuidCtr now) }) ∧
    (∀ nm, nm ∉ s.resolveTargets sel →
      alookup ((s.write_dict msg sel now w).2.1).named_producers nm =
        alookup s.named_producers nm) ∧
    ((s.write_dict msg sel now w).2.1).producers = s.producers ∧
    (∀ nm p, (s.resolveTargets sel).Nodup → nm ∈ s.resolveTargets sel →
      alookup s.named_producers nm = some p →
      ∃ m2 w2,
        alookup ((s.write_dict msg sel now w).2.1).named_producers nm =
          some ((p.write_dict m2 now w2).2.1)) ∧
    (s.resolveTargets sel = [] → s.write_dict msg sel now w = (msg, s, w)) := by
  refine ⟨?_, ?_, ?_, ?_, ?_⟩
  · intro p m w2 h
    exact (write_dict_below_threshold p m now w2 h).1
  · intro nm hnm
    exact dispatch_fold_frame now (s.resolveTargets sel) (msg, s, w) nm hnm
  · exact dispatch_fold_producers now (s.resolveTargets sel) (msg, s, w)
  · intro nm p hnodup hm hl
    exact dispatch_fold_targeted now (s.resolveTargets sel) (msg, s, w)
      nm p hnodup hm hl
  · intro he
    simp [MultiProducerState.write_dict, he]

/-- A producer for the fan-out witnesses, blocked until 10. -/
def pFa : TracktorProducer :=
  { name := "a", buffer_size := 3, encoding := "utf-8",
    wait_after_error := 10, messageBuffer := ⟨[[]]⟩,
    blockedUntil := 10, sent := [], flushes := 0 }

/-- An unblocked producer for the fan-out witnesses. -/
def pFb : TracktorProducer :=
  { name := "b", buffer_size := 3, encoding := "utf-8",
    wait_after_error := 10, messageBuffer := ⟨[[]]⟩,
    blockedUntil := 0, sent := [], flushes := 0 }

/-- An unblocked producer outside the fan-out target set. -/
def pFc : TracktorProducer :=
  { name := "c", buffer_size := 3, encoding := "utf-8",
    wait_after_error := 10, messageBuffer := ⟨[[]]⟩,
    blockedUntil := 0, sent := [], flushes := 0 }

/-- A registry for the fan-out witness: producer `a` blocked until 10,
producer `b` unblocked, producer `c` outside the target set; selector
`x` maps to `a` and `b`, the default set is empty. -/
def sFan : MultiProducerState :=
  ⟨[("a", pFa), ("b", pFb), ("c", pFc)],
   [("x", ["a", "b"]), ("default", [])]⟩

/-- Concrete run for `dispatch_fanout_frame_spec`: dispatch with
selector `x` on `sFan` at clock reading 0, while producer `a` is inside
its backoff window. -/
theorem dispatch_fanout_frame_spec_witness :
    (∀ (p : TracktorProducer) (m : Msg) (w2 : World),
      p.messageBuffer.len + 1 < p.buffer_size →
      (p.write_dict m 0 w2).2.1 =
        { p with messageBuffer :=
            p.messageBuffer.append (TracktorProducer.enrich m w2.uuidCtr 0) }) ∧
    (∀ nm, nm ∉ sFan.resolveTargets (some "x") →
      alookup ((sFan.write_dict [("k", Val.str "v")] (some "x") 0
        ⟨0, none, 0⟩).2.1).named_producers nm =
        alookup sFan.named_producers nm) ∧
    ((sFan.write_dict [("k", Val.str "v")] (some "x") 0
      ⟨0, none, 0⟩).2.1).producers = sFan.producers ∧
    (∀ nm p, (sFan.resolveTargets (some "x")).Nodup →
      nm ∈ sFan.resolveTargets (some "x") →
      alookup sFan.named_producers nm = some p →
      ∃ m2 w2,
        alookup ((sFan.write_dict [("k", Val.str "v")] (some "x") 0
          ⟨0, none, 0⟩).2.1).named_producers nm =
          some ((p.write_dict m2 0 w2).2.1)) ∧
    (sFan.resolveTargets (some "x") = [] →
      sFan.write_dict [("k", Val.str "v")] (some "x") 0 ⟨0, none, 0⟩ =
        ([("k", Val.str "v")], sFan, ⟨0, none, 0⟩)) :=
  dispatch_fanout_frame_spec sFan [("k", Val.str "v")] (some "x") 0
    ⟨0, none, 0⟩

/-- Observation helper: the serialized snapshot most recently appended
to the buffer of a producer. -/
def lastAppended (p : TracktorProducer) : Option Msg :=
  (p.messageBuffer.buffer.headD []).getLast?

theorem lastAppended_append (b : MessageBuffer) (m : Msg)
    (hb : b.buffer ≠ []) :
    ((b.append m).buffer.headD []).getLast? = some m := by
  cases hbb : b.buffer with
  | nil => exact absurd hbb hb
  | cons x xs => simp [MessageBuffer.append, hbb]

/-- The producer state after the in-place append of the enriched
message, used to phrase the fan-out lemmas. -/
def appendEnriched (p : TracktorProducer) (m : Msg) (uid : Nat)
    (now : ℚ) : TracktorProducer :=
  { p with
    messageBuffer := p.messageBuffer.append (TracktorProducer.enrich m uid now) }

theorem dispatch_fold_enrich (now : ℚ) (ts : List String) :
    ∀ (msg : Msg) (s : MultiProducerState) (w : World),
      ts.Nodup →
      (∀ nm ∈ ts, ∃ p, alookup s.named_producers nm = some p ∧
        p.messageBuffer.len + 1 < p.buffer_size ∧
        p.messageBuffer.buffer ≠ []) →
      ((ts.foldl (dispatchStep now) (msg, s, w)).2.2).uuidCtr =
        w.uuidCtr + ts.length ∧
      (∀ i (hi : i < ts.length),
        ((alookup
            ((ts.foldl (dispatchStep now) (msg, s, w)).2.1).named_producers
            (ts.get ⟨i, hi⟩)).bind lastAppended).bind
          (fun m => getKey m "message_id") =
          some (Val.uid (w.uuidCtr + i))) ∧
      (ts ≠ [] →
        getKey (ts.foldl (dispatchStep now) (msg, s, w)).1 "message_id" =
          some (Val.uid (w.uuidCtr + ts.length - 1))) := by
  induction ts with
  | nil =>
      intro msg s w _ _
      refine ⟨by simp, ?_, by simp⟩
      intro i hi
      exact absurd hi (by simp)
  | cons nm0 rest ih =>
      intro msg s w hnodup hfound
      simp only [List.nodup_cons] at hnodup
      obtain ⟨p0, hl0, hroom0, hbuf0⟩ :=
        hfound nm0 (List.mem_cons_self _ _)
      have hstep : dispatchStep now (msg, s, w) nm0 =
          (TracktorProducer.enrich msg w.uuidCtr now,
           ⟨dinsert s.named_producers nm0
              (appendEnriched p0 msg w.uuidCtr now), s.producers⟩,
           { w with uuidCtr := w.uuidCtr + 1 }) := by
        obtain ⟨hp, hw⟩ := write_dict_below_threshold p0 msg now w hroom0
        simp only [dispatchStep, hl0]
        rw [write_dict_msg, hp, hw]
        rfl
      have hfound1 : ∀ nm ∈ rest, ∃ p,
          alookup ((⟨dinsert s.named_producers nm0
              (appendEnriched p0 msg w.uuidCtr now), s.producers⟩ :
            MultiProducerState)).named_producers nm = some p ∧
          p.messageBuffer.len + 1 < p.buffer_size ∧
          p.messageBuffer.buffer ≠ [] := by
        intro nm hnm
        have hne : nm ≠ nm0 := fun he => hnodup.1 (he ▸ hnm)
        obtain ⟨p, hl, hr, hb⟩ := hfound nm (List.mem_cons_of_mem _ hnm)
        refine ⟨p, ?_, hr, hb⟩
        simp only
        rw [alookup_dinsert_ne _ nm0 nm _ hne]
        exact hl
      obtain ⟨ih1, ih2, ih3⟩ := ih
        (TracktorProducer.enrich msg w.uuidCtr now)
        ⟨dinsert s.named_producers nm0
            (appendEnriched p0 msg w.uuidCtr now), s.producers⟩
        { w with uuidCtr := w.uuidCtr + 1 }
        hnodup.2 hfound1
      refine ⟨?_, ?_, ?_⟩
      · simp only [List.foldl_cons, hstep, List.length_cons]
        rw [ih1]
        simp only
        omega
      · intro i hi
        simp only [List.foldl_cons, hstep]
        cases i with
        | zero =>
            simp only [List.get]
            rw [dispatch_fold_frame now rest _ nm0 hnodup.1]
            simp only
            rw [alookup_dinsert]
            simp only [Option.some_bind, lastAppended, appendEnriched]
            rw [lastAppended_append _ _ hbuf0]
            simp only [Option.some_bind]
            rw [getKey_enrich_id]
            simp
        | succ i =>
            have hi2 : i < rest.length := by
              simp only [List.length_cons] at hi
              omega
            have hg : (nm0 :: rest).get ⟨i + 1, hi⟩ = rest.get ⟨i, hi2⟩ := rfl
            rw [hg]
            have hix := ih2 i hi2
            rw [hix]
            simp only
            congr 2
            omega
      · intro _
        cases hrest : rest with
        | nil =>
            simp only [List.foldl_cons, hstep, hrest, List.foldl_nil]
            rw [getKey_enrich_id]
            simp
        | cons r0 rs =>
            simp only [List.foldl_cons, hstep]
            have hih := ih3 (by rw [hrest]; simp)
            rw [hrest] at hih
            simp only [List.foldl_cons] at hih
            rw [hih]
            simp only [List.length_cons]
            congr 2
            omega

/-- C9: dispatch threads the one caller-supplied dictionary through
every targeted producer, and each producer re-enriches that same
dictionary in place before serializing, so with `k` resolved targets the
fresh-identifier supply advances by `k`, the serialized snapshot
appended to the buffer of the target at position `i` carries the `i`-th
fresh identifier — all pairwise distinct — and the dictionary handed
back to the caller was mutated to carry the last generated identifier. -/
theorem dispatch_inplace_reenrichment_spec (s : MultiProducerState)
    (msg : Msg) (sel : Option String) (now : ℚ) (w : World)
    (hnodup : (s.resolveTargets sel).Nodup)
    (hfound : ∀ nm ∈ s.resolveTargets sel, ∃ p,
      alookup s.named_producers nm = some p ∧
      p.messageBuffer.len + 1 < p.buffer_size ∧
      p.messageBuffer.buffer ≠ []) :
    ((s.write_dict msg sel now w).2.2).uuidCtr =
      w.uuidCtr + (s.resolveTargets sel).length ∧
    (∀ i (hi : i < (s.resolveTargets sel).length),
      ((alookup ((s.write_dict msg sel now w).2.1).named_producers
          ((s.resolveTargets sel).get ⟨i, hi⟩)).bind lastAppended).bind
        (fun m => getKey m "message_id") =
        some (Val.uid (w.uuidCtr + i))) ∧
    (∀ i j (hi : i < (s.resolveTargets sel).length)
        (hj : j < (s.resolveTargets sel).length), i ≠ j →
      ((alookup ((s.write_dict msg sel now w).2.1).named_producers
          ((s.resolveTargets sel).get ⟨i, hi⟩)).bind lastAppended).bind
        (fun m => getKey m "message_id") ≠
      ((alookup ((s.write_dict msg sel now w).2.1).named_producers
          ((s.resolveTargets sel).get ⟨j, hj⟩)).bind lastAppended).bind
        (fun m => getKey m "message_id")) ∧
    (1 ≤ (s.resolveTargets sel).length →
      getKey (s.write_dict msg sel now w).1 "message_id" =
        some (Val.uid (w.uuidCtr + (s.resolveTargets sel).length - 1))) := by
  obtain ⟨h1, h2, h3⟩ :=
    dispatch_fold_enrich now (s.resolveTargets sel) msg s w hnodup hfound
  simp only [MultiProducerState.write_dict]
  refine ⟨h1, h2, ?_, ?_⟩
  · intro i j hi hj hne
    rw [h2 i hi, h2 j hj]
    intro he
    injection he with he2
    injection he2 with he3
    omega
  · intro hk
    apply h3
    intro hnil
    rw [hnil] at hk
    simp at hk

/-- Concrete run for `dispatch_inplace_reenrichment_spec`: the `sFan`
registry fanning one dictionary out to producers `a` and `b`. -/
theorem dispatch_inplace_reenrichment_spec_witness :
    ((sFan.write_dict [("k", Val.str "v")] (some "x") 0
      ⟨0, none, 0⟩).2.2).uuidCtr =
      (⟨0, none, 0⟩ : World).uuidCtr +
        (sFan.resolveTargets (some "x")).length ∧
    (∀ i (hi : i < (sFan.resolveTargets (some "x")).length),
      ((alookup ((sFan.write_dict [("k", Val.str "v")] (some "x") 0
          ⟨0, none, 0⟩).2.1).named_producers
          ((sFan.resolveTargets (some "x")).get ⟨i, hi⟩)).bind
            lastAppended).bind
        (fun m => getKey m "message_id") =
        some (Val.uid ((⟨0, none, 0⟩ : World).uuidCtr + i))) ∧
    (∀ i j (hi : i < (sFan.resolveTargets (some "x")).length)
        (hj : j < (sFan.resolveTargets (some "x")).length), i ≠ j →
      ((alookup ((sFan.write_dict [("k", Val.str "v")] (some "x") 0
          ⟨0, none, 0⟩).2.1).named_producers
          ((sFan.resolveTargets (some "x")).get ⟨i, hi⟩)).bind
            lastAppended).bind
        (fun m => getKey m "message_id") ≠
      ((alookup ((sFan.write_dict [("k", Val.str "v")] (some "x") 0
          ⟨0, none, 0⟩).2.1).named_producers
          ((sFan.resolveTargets (some "x")).get ⟨j, hj⟩)).bind
            lastAppended).bind
        (fun m => getKey m "message_id")) ∧
    (1 ≤ (sFan.resolveTargets (some "x")).length →
      getKey (sFan.write_dict [("k", Val.str "v")] (some "x") 0
        ⟨0, none, 0⟩).1 "message_id" =
        some (Val.uid ((⟨0, none, 0⟩ : World).uuidCtr +
          (sFan.resolveTargets (some "x")).length - 1))) :=
  dispatch_inplace_reenrichment_spec sFan [("k", Val.str "v")] (some "x")
    0 ⟨0, none, 0⟩ (by decide)
    (by
      intro nm hnm
      have hr : sFan.resolveTargets (some "x") = ["a", "b"] := rfl
      rw [hr] at hnm
      simp only [List.mem_cons, List.not_mem_nil, or_false] at hnm
      rcases hnm with rfl | rfl
      · exact ⟨pFa, rfl, by decide, by decide⟩
      · exact ⟨pFb, rfl, by decide, by decide⟩)

/-! ### Lazy creation of the shared pool under concurrency
(src/tracktor/producer.py, lines 52 to 53 and 92 to 105)

The class declares `thread_lock = Lock()` but no code ever acquires it:
the body of the `thread_pool` property is the unguarded check-then-act
reading `__thread_pool is None` and then, when the read saw `None`,
constructing a `ThreadPool` and storing it.  Two producers calling the
property concurrently interleave at statement level.  Each thread is
modelled with a program counter: step 0 performs the read, step 1
constructs and stores a pool exactly when the read saw `None`. -/

structure LazyThread where
  pc : Nat
  sawNone : Bool
deriving DecidableEq

structure LazyState where
  pool : Option Nat
  poolsCreated : Nat
  t1 : LazyThread
  t2 : LazyThread
deriving DecidableEq

def lazyThreadStep (pool : Option Nat) (poolsCreated : Nat)
    (t : LazyThread) : Option Nat × Nat × LazyThread :=
  if t.pc = 0 then
    (pool, poolsCreated, { pc := 1, sawNone := pool.isNone })
  else if t.pc = 1 then
    if t.sawNone then
      (some poolsCreated, poolsCreated + 1, { t with pc := 2 })
    else
      (pool, poolsCreated, { t with pc := 2 })
  else
    (pool, poolsCreated, t)

def LazyState.step (s : LazyState) (tid : Bool) : LazyState :=
  if tid then
    let r := lazyThreadStep s.pool s.poolsCreated s.t1
    { s with pool := r.1, poolsCreated := r.2.1, t1 := r.2.2 }
  else
    let r := lazyThreadStep s.pool s.poolsCreated s.t2
    { s with pool := r.1, poolsCreated := r.2.1, t2 := r.2.2 }

def runLazy (sched : List Bool) (s : LazyState) : LazyState :=
  sched.foldl LazyState.step s

/-- Both threads about to run the `thread_pool` property for the first
time, no pool yet. -/
def lazyInit : LazyState := ⟨none, 0, ⟨0, false⟩, ⟨0, false⟩⟩

/-- C10: under sequential access the pool is created lazily on the first
access and reused afterwards, and either serial schedule of two threads
creates exactly one pool; but because `thread_lock` is never acquired,
the interleaving in which both threads read the class attribute before
either stores a pool constructs two pools — the claimed lock guard does
not exist in the code. -/
theorem lazy_pool_unguarded_race :
    ((World.thread_pool ⟨0, none, 0⟩).2).poolsCreated = 1 ∧
    ((World.thread_pool ⟨0, none, 0⟩).2).threadPool = some 0 ∧
    World.thread_pool ((World.thread_pool ⟨0, none, 0⟩).2) =
      ((World.thread_pool ⟨0, none, 0⟩).1,
       (World.thread_pool ⟨0, none, 0⟩).2) ∧
    (runLazy [true, true, false, false] lazyInit).poolsCreated = 1 ∧
    (runLazy [false, false, true, true] lazyInit).poolsCreated = 1 ∧
    (runLazy [true, false, true, false] lazyInit).poolsCreated = 2 := by
  decide

end Tracktor
